import Mathlib

/-!
Verification of the sentiment analytics aggregation engine of
`solana-sentiment-analysis` (module `src/data_processing/crud/core_queries.py`).

The Python module is shallowly embedded: the relational store is a record of
row lists, SQL queries become list filters/joins/folds, `datetime` values
become integers (hours since an arbitrary epoch, so one day is 24 ticks),
Python `float` results become exact rationals, and `raise ValueError` becomes
an `Except` error value.  The two error kinds of the specification
(`InvalidParameter` and `NotFound`) classify the `ValueError` messages of the
source.  Python `round(x, n)` is modelled as round-half-to-even on rationals.
Calendar-exact `date_trunc` boundaries are abstracted to fixed-width integer
truncation (hour = 1 tick, day = 24, week = 168, month = 720); no theorem
below depends on where a bucket boundary falls.
-/

set_option maxRecDepth 8000

namespace CoreQueries

/-- The three sentiment categories stored in `SentimentEnum`. -/
inductive Sentiment where
  | positive
  | negative
  | neutral
deriving DecidableEq, Repr

/-- Row of the `blockchain_tokens` table (fields used by the analytics). -/
structure BlockchainToken where
  id : Nat
  symbol : String
  name : String
  blockchain_network : Option String
deriving DecidableEq, Repr

/-- Row of the `tweets` table (fields used by the analytics). -/
structure Tweet where
  id : Nat
  created_at : Int
deriving DecidableEq, Repr

/-- Row of the `sentiment_analysis` table. -/
structure SentimentAnalysis where
  id : Nat
  tweet_id : Nat
  sentiment : Sentiment
  confidence_score : Rat
deriving DecidableEq, Repr

/-- Row of the `token_mentions` table. -/
structure TokenMention where
  id : Nat
  tweet_id : Nat
  token_id : Nat
deriving DecidableEq, Repr

/-- Row of the `blockchain_networks` table. -/
structure BlockchainNetwork where
  name : String
  display_name : Option String
deriving DecidableEq, Repr

/-- A snapshot of the relational store queried by the engine. -/
structure DB where
  tokens : List BlockchainToken
  tweets : List Tweet
  sentiments : List SentimentAnalysis
  mentions : List TokenMention
  networks : List BlockchainNetwork
deriving Repr

/-- The error taxonomy of the specification, classifying the messages of the
`ValueError` exceptions raised by the source. -/
inductive Err where
  | invalidParameter (msg : String)
  | notFound (msg : String)
deriving DecidableEq, Repr

/-! ### Python primitives -/

/-- Python lexicographic string comparison (strict), on code points; used by
the builtins `min`/`max` applied to strings in `find_similar_tokens`. -/
def strLt : List Char → List Char → Bool
  | [], [] => false
  | [], _ :: _ => true
  | _ :: _, [] => false
  | a :: as, b :: bs =>
    if a.toNat < b.toNat then true
    else if b.toNat < a.toNat then false
    else strLt as bs

/-- Python `min(a, b)` on strings: the lexicographically smaller string
(the first argument on ties). -/
def pymin (a b : List Char) : List Char := if strLt b a then b else a

/-- Python `max(a, b)` on strings: the lexicographically larger string
(the first argument on ties). -/
def pymax (a b : List Char) : List Char := if strLt a b then b else a

/-- Python `str.lower` for the ASCII range (symbols in scope are ASCII). -/
def lowerChar (c : Char) : Char :=
  if 65 ≤ c.toNat ∧ c.toNat ≤ 90 then Char.ofNat (c.toNat + 32) else c

/-- Whitespace stripped by Python `str.strip`. -/
def isSpaceChar (c : Char) : Bool :=
  c = ' ' ∨ c = '\t' ∨ c = '\n' ∨ c = '\r'

/-- Python `s.lower().strip()`, the normalization used by the similarity
matcher. -/
def pyNormalize (s : String) : List Char :=
  (((s.data.map lowerChar).dropWhile isSpaceChar).reverse.dropWhile
    isSpaceChar).reverse

/-- Python substring containment `a in b`. -/
def substr : List Char → List Char → Bool
  | xs, [] => xs.isEmpty
  | xs, y :: ys => xs.isPrefixOf (y :: ys) || substr xs ys

/-- Round-half-to-even to an integer, the rounding mode of Python `round`. -/
def roundHalfEven (x : Rat) : Int :=
  if x - ⌊x⌋ < 1/2 then ⌊x⌋
  else if (1 : Rat)/2 < x - ⌊x⌋ then ⌊x⌋ + 1
  else if ⌊x⌋ % 2 = 0 then ⌊x⌋ else ⌊x⌋ + 1

/-- Python `round(x, n)` modelled exactly on rationals. -/
def pyround (x : Rat) (n : Nat) : Rat :=
  (roundHalfEven (x * (10 : Rat) ^ n) : Rat) / (10 : Rat) ^ n

/-! ### Relational query primitives

Timestamps are integers counted in hours, so `timedelta(days = d)` is
`24 * d` ticks and `datetime.utcnow()` is the caller-supplied `now`.
SQL `BETWEEN` is inclusive on both ends, exactly as the source's
`Tweet.created_at.between(start_date, end_date)`. -/

/-- SQL `BETWEEN`: inclusive bounds. -/
def betweenB (lo hi t : Int) : Bool := decide (lo ≤ t) && decide (t ≤ hi)

/-- A row of the join
`SentimentAnalysis ⋈ Tweet ⋈ TokenMention ⋈ BlockchainToken` used by every
sentiment-count query of the module. -/
structure JoinedRow where
  sa : SentimentAnalysis
  tw : Tweet
  tm : TokenMention
  tok : BlockchainToken
deriving DecidableEq, Repr

/-- The inner join on `SentimentAnalysis.tweet_id = Tweet.id`,
`TokenMention.tweet_id = Tweet.id` and
`BlockchainToken.id = TokenMention.token_id`. -/
def joinedRows (db : DB) : List JoinedRow :=
  db.sentiments.flatMap (fun sa =>
    db.tweets.flatMap (fun tw =>
      db.mentions.flatMap (fun tm =>
        db.tokens.filterMap (fun tok =>
          if sa.tweet_id = tw.id ∧ tm.tweet_id = tw.id ∧ tok.id = tm.token_id
          then some ⟨sa, tw, tm, tok⟩ else none))))

/-- Optional-network filter `if blockchain_network: ... filter(...)`. -/
def netMatch (blockchain_network : Option String) (t : BlockchainToken) : Bool :=
  match blockchain_network with
  | some net => decide (t.blockchain_network = some net)
  | none => true

/-- Token filter of the single-token queries: by symbol (plus optional
network), otherwise by id. -/
def tokenFilter (token_symbol : Option String) (token_id : Option Nat)
    (blockchain_network : Option String) (t : BlockchainToken) : Bool :=
  match token_symbol with
  | some sym => decide (t.symbol = sym) && netMatch blockchain_network t
  | none =>
    match token_id with
    | some tid => decide (t.id = tid)
    | none => false

/-- Fixed enumeration of the sentiment categories (the iteration order of
`SentimentEnum`). -/
def sentimentList : List Sentiment := [.positive, .negative, .neutral]

/-- One output row of a `GROUP BY sentiment` query with `count` and
`avg(confidence_score)`. -/
structure SentimentGroup where
  sentiment : Sentiment
  count : Nat
  avg_confidence : Rat
deriving DecidableEq, Repr

/-- `GROUP BY sentiment` over joined rows, one group per category that has
at least one row, ordered by descending count (the `ORDER BY` of the stats
query; group enumeration order is engine-determined and modelled by the
fixed category order, which no theorem depends on). -/
def groupBySentiment (rows : List JoinedRow) : List SentimentGroup :=
  (sentimentList.filterMap (fun s =>
    let xs := rows.filter (fun r => decide (r.sa.sentiment = s))
    if xs.isEmpty then none
    else some ⟨s, xs.length,
      (xs.map (fun r => r.sa.confidence_score)).sum / (xs.length : Rat)⟩)
  ).insertionSort (fun a b => b.count ≤ a.count)

/-! ### `get_token_sentiment_stats` -/

/-- Entry of the `sentiment_breakdown` mapping of the stats result. -/
structure BreakdownEntry where
  sentiment : Sentiment
  count : Nat
  percentage : Rat
  avg_confidence : Rat
deriving DecidableEq, Repr

/-- Result of `get_token_sentiment_stats`. -/
structure TokenSentimentStats where
  token : String
  blockchain_network : Option String
  total_mentions : Nat
  sentiment_breakdown : List BreakdownEntry
deriving DecidableEq, Repr

/-- The not-found message of the stats/timeline validation. -/
def tokenNotFoundMsg (sym : String) (blockchain_network : Option String) :
    String :=
  match blockchain_network with
  | some net => "Token with symbol " ++ sym ++ " on network " ++ net
      ++ " not found"
  | none => "Token with symbol " ++ sym ++ " not found"

/-- Display name of the selected token in the stats result. -/
def statsTokenInfo (token_symbol : Option String) (token_id : Option Nat)
    (blockchain_network : Option String) : String :=
  match token_symbol with
  | some sym =>
    match blockchain_network with
    | some net => sym ++ " (" ++ net ++ ")"
    | none => sym
  | none => "ID: " ++ toString (token_id.getD 0)

/-- The query-and-format body shared by both selector paths of
`get_token_sentiment_stats` (lines 50-106 of the source). -/
def statsCore (db : DB) (token_symbol : Option String) (token_id : Option Nat)
    (blockchain_network : Option String) (days_back now : Int) :
    TokenSentimentStats :=
  let end_date := now
  let start_date := end_date - 24 * days_back
  let rows := (joinedRows db).filter (fun r =>
    betweenB start_date end_date r.tw.created_at &&
    tokenFilter token_symbol token_id blockchain_network r.tok)
  let sentiment_stats := groupBySentiment rows
  let total_mentions := (sentiment_stats.map (fun g => g.count)).sum
  { token := statsTokenInfo token_symbol token_id blockchain_network,
    blockchain_network := blockchain_network,
    total_mentions := total_mentions,
    sentiment_breakdown := sentiment_stats.map (fun g =>
      { sentiment := g.sentiment, count := g.count,
        percentage :=
          if total_mentions > 0 then
            pyround ((g.count : Rat) / (total_mentions : Rat) * 100) 2
          else 0,
        avg_confidence := pyround g.avg_confidence 2 }) }

/-- The token-existence validation shared by the stats, timeline and
top-users queries: a symbol resolves when some token carries it (on the
given network, when one is supplied); an id resolves when some token has
that id (the network filter is not applied on the id path, as in the
source). -/
def selectorResolves (db : DB) (token_symbol : Option String)
    (token_id : Option Nat) (blockchain_network : Option String) : Bool :=
  match token_symbol with
  | some sym =>
    db.tokens.any (fun t => decide (t.symbol = sym)
      && netMatch blockchain_network t)
  | none =>
    match token_id with
    | some tid => db.tokens.any (fun t => decide (t.id = tid))
    | none => false

/-- The not-found message of the failed selector validation. -/
def selectorNotFoundMsg (token_symbol : Option String) (token_id : Option Nat)
    (blockchain_network : Option String) : String :=
  match token_symbol with
  | some sym => tokenNotFoundMsg sym blockchain_network
  | none => "Token with ID " ++ toString (token_id.getD 0) ++ " not found"

/-- Embedding of `get_token_sentiment_stats` (core_queries.py lines 9-106).
Note: the source performs no validation of `days_back` whatsoever. -/
def get_token_sentiment_stats (db : DB) (token_symbol : Option String)
    (token_id : Option Nat) (blockchain_network : Option String)
    (days_back : Int) (now : Int) : Except Err TokenSentimentStats :=
  if token_symbol = none ∧ token_id = none then
    .error (.invalidParameter "Must provide either token_symbol or token_id")
  else if selectorResolves db token_symbol token_id blockchain_network then
    .ok (statsCore db token_symbol token_id blockchain_network days_back now)
  else
    .error (.notFound
      (selectorNotFoundMsg token_symbol token_id blockchain_network))

/-! ### `get_token_sentiment_timeline` -/

/-- The interval values accepted by the timeline queries. -/
def validIntervals : List String := ["hour", "day", "week", "month"]

/-- `date_trunc(interval, t)` on hour-granularity integer timestamps; the
month width is fixed at 30 days, abstracting calendar-exact boundaries
(no theorem depends on where a boundary falls). -/
def dateTrunc (interval : String) (t : Int) : Int :=
  if interval = "hour" then t
  else if interval = "day" then 24 * t.fdiv 24
  else if interval = "week" then 168 * t.fdiv 168
  else 720 * t.fdiv 720

/-- One timeline data point; `date` is the bucket timestamp. -/
structure TimelinePoint where
  date : Int
  total : Nat
  positive : Nat
  negative : Nat
  neutral : Nat
  positive_pct : Rat
  negative_pct : Rat
  neutral_pct : Rat
deriving DecidableEq, Repr

/-- The zero-initialised data point the loop creates on a bucket change. -/
def newPoint (b : Int) : TimelinePoint :=
  { date := b, total := 0, positive := 0, negative := 0, neutral := 0,
    positive_pct := 0, negative_pct := 0, neutral_pct := 0 }

/-- The loop body `current_data["total"] += count;
current_data[sentiment_key] = count` (note the per-category field is
assigned, not accumulated, exactly as in the source). -/
def addCount (p : TimelinePoint) (s : Sentiment) (c : Nat) : TimelinePoint :=
  let q := { p with total := p.total + c }
  match s with
  | .positive => { q with positive := c }
  | .negative => { q with negative := c }
  | .neutral => { q with neutral := c }

/-- The iterate-and-branch-on-bucket-change loop that turns the ordered
`(bucket, sentiment, count)` rows into data points, carrying the pending
point as the accumulator and emitting it on each bucket change and at the
end. -/
def buildTimeline :
    List (Int × Sentiment × Nat) → Option (Int × TimelinePoint) →
    List TimelinePoint
  | [], none => []
  | [], some (_, d) => [d]
  | (b, s, c) :: rest, none =>
    buildTimeline rest (some (b, addCount (newPoint b) s c))
  | (b, s, c) :: rest, some (cb, d) =>
    if b = cb then buildTimeline rest (some (cb, addCount d s c))
    else d :: buildTimeline rest (some (b, addCount (newPoint b) s c))

/-- The percentage pass executed after the loop (only for points with at
least one mention). -/
def withPcts (p : TimelinePoint) : TimelinePoint :=
  if p.total > 0 then
    { p with
      positive_pct := pyround ((p.positive : Rat) / (p.total : Rat) * 100) 2,
      negative_pct := pyround ((p.negative : Rat) / (p.total : Rat) * 100) 2,
      neutral_pct := pyround ((p.neutral : Rat) / (p.total : Rat) * 100) 2 }
  else p

/-- The grouped rows of the timeline query: `GROUP BY (time_bucket,
sentiment) ORDER BY time_bucket`, one row per pair with at least one joined
row. -/
def timelineGroupedRows (interval : String) (rows : List JoinedRow) :
    List (Int × Sentiment × Nat) :=
  let buckets := ((rows.map
    (fun r => dateTrunc interval r.tw.created_at)).dedup).insertionSort
      (fun a b => a ≤ b)
  buckets.flatMap (fun b =>
    sentimentList.filterMap (fun s =>
      let c := rows.countP (fun r =>
        decide (dateTrunc interval r.tw.created_at = b)
        && decide (r.sa.sentiment = s))
      if c = 0 then none else some (b, s, c)))

/-- Result of `get_token_sentiment_timeline`. -/
structure TokenTimeline where
  symbol : String
  blockchain_network : Option String
  timeline : List TimelinePoint
deriving DecidableEq, Repr

/-- Embedding of `get_token_sentiment_timeline` (core_queries.py lines
109-250): validations in source order (selector, interval, `days_back`,
token existence), then the bucketed query and the point-building loop. -/
def get_token_sentiment_timeline (db : DB) (token_symbol : Option String)
    (token_id : Option Nat) (blockchain_network : Option String)
    (days_back : Int) (interval : String) (now : Int) :
    Except Err TokenTimeline :=
  if token_symbol = none ∧ token_id = none then
    .error (.invalidParameter "Must provide either token_symbol or token_id")
  else if decide (interval ∈ validIntervals) = false then
    .error (.invalidParameter ("Invalid interval " ++ interval))
  else if days_back ≤ 0 then
    .error (.invalidParameter "days_back must be a positive integer")
  else if selectorResolves db token_symbol token_id blockchain_network
      = false then
    .error (.notFound
      (selectorNotFoundMsg token_symbol token_id blockchain_network))
  else
    let start_date := now - 24 * days_back
    let rows := (joinedRows db).filter (fun r =>
      betweenB start_date now r.tw.created_at &&
      tokenFilter token_symbol token_id blockchain_network r.tok)
    let timeline_data := buildTimeline (timelineGroupedRows interval rows) none
    .ok { symbol :=
            match token_symbol with
            | some sym => sym
            | none => "ID: " ++ toString (token_id.getD 0),
          blockchain_network := blockchain_network,
          timeline := timeline_data.map withPcts }

/-! ### Shared join rows and dictionary helpers -/

/-- A row of the join `TokenMention ⋈ Tweet ⋈ BlockchainToken` used by the
mention-count queries. -/
structure MentionRow where
  tm : TokenMention
  tw : Tweet
  tok : BlockchainToken
deriving DecidableEq, Repr

/-- The inner join on `TokenMention.tweet_id = Tweet.id` and
`BlockchainToken.id = TokenMention.token_id`. -/
def mentionRows (db : DB) : List MentionRow :=
  db.mentions.flatMap (fun tm =>
    db.tweets.flatMap (fun tw =>
      db.tokens.filterMap (fun tok =>
        if tm.tweet_id = tw.id ∧ tok.id = tm.token_id
        then some ⟨tm, tw, tok⟩ else none)))

/-- A row of the three-table join `SentimentAnalysis ⋈ Tweet ⋈ TokenMention`
(no token join) used by the per-token-id sentiment subqueries. -/
structure SentRow where
  sa : SentimentAnalysis
  tw : Tweet
  tm : TokenMention
deriving DecidableEq, Repr

/-- The inner join on `SentimentAnalysis.tweet_id = Tweet.id` and
`TokenMention.tweet_id = Tweet.id`. -/
def sentRows (db : DB) : List SentRow :=
  db.sentiments.flatMap (fun sa =>
    db.tweets.flatMap (fun tw =>
      db.mentions.filterMap (fun tm =>
        if sa.tweet_id = tw.id ∧ tm.tweet_id = tw.id
        then some ⟨sa, tw, tm⟩ else none)))

/-- Count of one sentiment category over the three-table join restricted to
mentions of the given token ids inside the window. -/
def sentCountFor (db : DB) (tokenIds : List Nat) (lo hi : Int)
    (s : Sentiment) : Nat :=
  (sentRows db).countP (fun r =>
    decide (r.tm.token_id ∈ tokenIds) && betweenB lo hi r.tw.created_at
    && decide (r.sa.sentiment = s))

/-- Python dict assignment `d[k] = f(d.get(k))` on an insertion-ordered
association list: replaces the value of an existing key in place, appends a
new key at the end. -/
def dictUpsert {α : Type} : List (String × α) → String →
    (Option α → α) → List (String × α)
  | [], k, f => [(k, f none)]
  | p :: rest, k, f =>
    if p.1 = k then (k, f (some p.2)) :: rest else p :: dictUpsert rest k f

/-- Python dict assignment of a plain value. -/
def dictInsertKV {α : Type} (d : List (String × α)) (k : String) (v : α) :
    List (String × α) :=
  dictUpsert d k (fun _ => v)

/-- Python dict assignment on a sentiment-keyed association list. -/
def setAssoc : List (Sentiment × Nat × Rat) → Sentiment → Nat × Rat →
    List (Sentiment × Nat × Rat)
  | [], s, v => [(s, v)]
  | p :: rest, s, v =>
    if p.1 = s then (s, v) :: rest else p :: setAssoc rest s v

/-- Python `d.get(s, (0, 0))` on a sentiment-keyed association list. -/
def getSent : List (Sentiment × Nat × Rat) → Sentiment → Nat × Rat
  | [], _ => (0, 0)
  | p :: rest, s => if p.1 = s then p.2 else getSent rest s

/-- `f"{symbol} ({network})" if network else symbol`. -/
def displayName (symbol : String) (network : Option String) : String :=
  match network with
  | some net => symbol ++ " (" ++ net ++ ")"
  | none => symbol

/-- `f"{symbol}_{network}" if network else symbol`, the composite
dictionary key of the comparator and momentum accumulators. -/
def underscoreKey (symbol : String) (network : Option String) : String :=
  match network with
  | some net => symbol ++ "_" ++ net
  | none => symbol

/-- Python truthiness of an optional list: `None` and `[]` are falsy. -/
def denone {α : Type} : Option (List α) → Option (List α)
  | some [] => none
  | x => x

/-- Membership of a nullable column in an SQL `IN` list (`NULL` never
matches). -/
def netIn (nets : List String) (t : BlockchainToken) : Bool :=
  decide (∃ n ∈ nets, t.blockchain_network = some n)

/-! ### `get_most_discussed_tokens` -/

/-- One category cell of a sentiment breakdown carrying count and
percentage. -/
structure SentimentCell where
  sentiment : Sentiment
  count : Nat
  percentage : Rat
deriving DecidableEq, Repr

/-- Result entry of `get_most_discussed_tokens`. -/
structure DiscussedToken where
  token_id : Nat
  symbol : String
  name : String
  blockchain_network : Option String
  display_name : String
  mention_count : Nat
  sentiment_score : Rat
  sentiment_breakdown : List SentimentCell
deriving DecidableEq, Repr

/-- Mention count of one token over the mention join inside the window
(`GROUP BY` token with `COUNT(TokenMention.id)`). -/
def tokenMentionCount (db : DB) (lo hi : Int) (tok : BlockchainToken) : Nat :=
  (mentionRows db).countP (fun r =>
    decide (r.tok = tok) && betweenB lo hi r.tw.created_at)

/-- The per-token formatting step of `get_most_discussed_tokens` (lines
553-598): a sentiment subquery keyed by the token id, percentages, and a
score computed from the two rounded percentages. -/
def discussedEntry (db : DB) (lo hi : Int) (tok : BlockchainToken)
    (mention_count : Nat) : DiscussedToken :=
  let counts := fun s => sentCountFor db [tok.id] lo hi s
  let total := counts .positive + counts .negative + counts .neutral
  let positive_pct : Rat :=
    if 0 < total then pyround ((counts .positive : Rat) / total * 100) 2
    else 0
  let negative_pct : Rat :=
    if 0 < total then pyround ((counts .negative : Rat) / total * 100) 2
    else 0
  { token_id := tok.id, symbol := tok.symbol, name := tok.name,
    blockchain_network := tok.blockchain_network,
    display_name := displayName tok.symbol tok.blockchain_network,
    mention_count := mention_count,
    sentiment_score := pyround ((positive_pct - negative_pct) / 100) 2,
    sentiment_breakdown := sentimentList.map (fun s =>
      { sentiment := s, count := counts s,
        percentage :=
          if 0 < total then pyround ((counts s : Rat) / total * 100) 2
          else 0 }) }

/-- Embedding of `get_most_discussed_tokens` (core_queries.py lines
485-610); note `min_mentions` is rejected only when negative.  Groups of
the mention-count query exist only for tokens with at least one joined row,
as under an inner join. -/
def get_most_discussed_tokens (db : DB)
    (days_back limit min_mentions : Int)
    (blockchain_network : Option String) (now : Int) :
    Except Err (List DiscussedToken) :=
  if days_back ≤ 0 then
    .error (.invalidParameter "days_back must be a positive integer")
  else if limit ≤ 0 then
    .error (.invalidParameter "limit must be a positive integer")
  else if min_mentions < 0 then
    .error (.invalidParameter "min_mentions cannot be negative")
  else
    let start_date := now - 24 * days_back
    let grouped := (db.tokens.dedup.filter
      (fun tok => netMatch blockchain_network tok)).filterMap (fun tok =>
        let c := tokenMentionCount db start_date now tok
        if 0 < c ∧ min_mentions ≤ (c : Int) then some (tok, c) else none)
    let ranked := (grouped.insertionSort
      (fun a b => b.2 ≤ a.2)).take limit.toNat
    .ok (ranked.map (fun p => discussedEntry db start_date now p.1 p.2))

/-! ### `compare_token_sentiments` -/

/-- Per-category block of the comparator output. -/
structure SentimentDetail where
  count : Nat
  percentage : Rat
  avg_confidence : Rat
deriving DecidableEq, Repr

/-- One token block of the comparator output. -/
structure ComparedToken where
  symbol : String
  blockchain_network : Option String
  total_mentions : Nat
  sentiment_score : Rat
  positive : SentimentDetail
  negative : SentimentDetail
  neutral : SentimentDetail
deriving DecidableEq, Repr

/-- Accumulator entry of the `token_mentions` dictionary. -/
structure TokenAccum where
  symbol : String
  blockchain_network : Option String
  total : Nat
  sentiments : List (Sentiment × Nat × Rat)
deriving DecidableEq, Repr

/-- A grouped row of the comparator query: group key fields, sentiment,
count and average confidence. -/
structure CompareGroupRow where
  symbol : String
  blockchain_network : Option String
  sentiment : Sentiment
  count : Nat
  avg_confidence : Rat
deriving DecidableEq, Repr

/-- Grouped rows of the symbols-path comparator query (`GROUP BY symbol,
network, sentiment` over the four-table join). -/
def compareGroupedRowsBySymbol (db : DB) (syms : List String)
    (netsFilter : Option (List String)) (lo hi : Int) :
    List CompareGroupRow :=
  let rows := (joinedRows db).filter (fun r =>
    decide (r.tok.symbol ∈ syms) && betweenB lo hi r.tw.created_at &&
    (match netsFilter with
     | some nets => netIn nets r.tok
     | none => true))
  let pairs := (rows.map
    (fun r => (r.tok.symbol, r.tok.blockchain_network))).dedup
  pairs.flatMap (fun pr =>
    sentimentList.filterMap (fun s =>
      let xs := rows.filter (fun r =>
        decide (r.tok.symbol = pr.1)
        && decide (r.tok.blockchain_network = pr.2)
        && decide (r.sa.sentiment = s))
      if xs.isEmpty then none
      else some ⟨pr.1, pr.2, s, xs.length,
        (xs.map (fun r => r.sa.confidence_score)).sum / (xs.length : Rat)⟩))

/-- Grouped rows of the ids-path comparator query (`GROUP BY id, symbol,
network, sentiment`). -/
def compareGroupedRowsById (db : DB) (tids : List Nat)
    (netsFilter : Option (List String)) (lo hi : Int) :
    List CompareGroupRow :=
  let rows := (joinedRows db).filter (fun r =>
    decide (r.tok.id ∈ tids) && betweenB lo hi r.tw.created_at &&
    (match netsFilter with
     | some nets => netIn nets r.tok
     | none => true))
  let keys := (rows.map
    (fun r => (r.tok.id, r.tok.symbol, r.tok.blockchain_network))).dedup
  keys.flatMap (fun ky =>
    sentimentList.filterMap (fun s =>
      let xs := rows.filter (fun r =>
        decide (r.tok.id = ky.1) && decide (r.tok.symbol = ky.2.1)
        && decide (r.tok.blockchain_network = ky.2.2)
        && decide (r.sa.sentiment = s))
      if xs.isEmpty then none
      else some ⟨ky.2.1, ky.2.2, s, xs.length,
        (xs.map (fun r => r.sa.confidence_score)).sum / (xs.length : Rat)⟩))

/-- The `token_mentions` accumulation loop of the comparator: one dict
update per grouped row, keyed `symbol_network`. -/
def accumulateTokenMentions (grows : List CompareGroupRow) :
    List (String × TokenAccum) :=
  grows.foldl (fun d g =>
    dictUpsert d (underscoreKey g.symbol g.blockchain_network) (fun cur =>
      let a := cur.getD
        ⟨g.symbol, g.blockchain_network, 0, []⟩
      { a with total := a.total + g.count,
               sentiments := setAssoc a.sentiments g.sentiment
                 (g.count, pyround g.avg_confidence 2) })) []

/-- The final formatting pass of the comparator: zero-filled category
details, percentages and the sentiment score. -/
def finalizeCompared (a : TokenAccum) : String × ComparedToken :=
  let total := a.total
  let detail := fun s =>
    let cv := getSent a.sentiments s
    ({ count := cv.1,
       percentage :=
         if 0 < total then pyround ((cv.1 : Rat) / total * 100) 2 else 0,
       avg_confidence := cv.2 } : SentimentDetail)
  let positive_count := (getSent a.sentiments .positive).1
  let negative_count := (getSent a.sentiments .negative).1
  (displayName a.symbol a.blockchain_network,
   { symbol := a.symbol, blockchain_network := a.blockchain_network,
     total_mentions := total,
     sentiment_score :=
       if 0 < total then
         pyround (((positive_count : Rat) - negative_count) / total) 2
       else 0,
     positive := detail .positive, negative := detail .negative,
     neutral := detail .neutral })

/-- Whether per-token networks were supplied (one network per selector). -/
def useSpecificNetworks (tsyms : Option (List String))
    (tids : Option (List Nat)) (nets : Option (List String)) : Bool :=
  match nets with
  | none => false
  | some ns =>
    match tsyms with
    | some ss =>
      if ns.length = ss.length then true
      else
        match tids with
        | some is_ => decide (ns.length = is_.length)
        | none => false
    | none =>
      match tids with
      | some is_ => decide (ns.length = is_.length)
      | none => false

/-- Resolution of one symbol in the non-specific validation: some token
carries the symbol, restricted to the given networks when any are given. -/
def symbolResolves (db : DB) (nets : Option (List String)) (s : String) :
    Bool :=
  db.tokens.any (fun t => decide (t.symbol = s) &&
    (match nets with
     | some ns => netIn ns t
     | none => true))

/-- Resolution of one id in the ids-path validation. -/
def idResolves (db : DB) (nets : Option (List String)) (i : Nat) : Bool :=
  db.tokens.any (fun t => decide (t.id = i) &&
    (match nets with
     | some ns => netIn ns t
     | none => true))

/-- Resolution of one (symbol, network) pair in the specific-networks
validation. -/
def pairResolves (db : DB) (pr : String × String) : Bool :=
  db.tokens.any (fun t => decide (t.symbol = pr.1)
    && decide (t.blockchain_network = some pr.2))

/-- Embedding of `compare_token_sentiments` (core_queries.py lines
253-482): all-or-nothing validation of every named token, then the grouped
query, the keyed accumulation and the formatting pass. -/
def compare_token_sentiments (db : DB) (token_symbols : Option (List String))
    (token_ids : Option (List Nat)) (blockchain_networks : Option (List String))
    (days_back now : Int) : Except Err (List (String × ComparedToken)) :=
  let tsyms := denone token_symbols
  let tids := denone token_ids
  let nets := denone blockchain_networks
  if tsyms = none ∧ tids = none then
    .error (.invalidParameter "Must provide either token_symbols or token_ids")
  else if (match tsyms, tids with
           | some ss, some is_ => decide (ss.length ≠ is_.length)
           | _, _ => false) then
    .error (.invalidParameter
      "If both token_symbols and token_ids are provided, they must be the same length")
  else
    let use_specific := useSpecificNetworks tsyms tids nets
    let validated : Except Err Unit :=
      match tsyms with
      | some ss =>
        if use_specific then
          match (ss.zip (nets.getD [])).find?
              (fun pr => !pairResolves db pr) with
          | some pr => .error (.notFound
              ("Token with symbol " ++ pr.1 ++ " on network " ++ pr.2
                ++ " not found"))
          | none => .ok ()
        else
          if ss.any (fun s => !symbolResolves db nets s) then
            .error (.notFound "Tokens with symbols not found")
          else .ok ()
      | none =>
        match tids with
        | some is_ =>
          if is_.any (fun i =>
              !idResolves db (if use_specific then none else nets) i) then
            .error (.notFound "Tokens with IDs not found")
          else .ok ()
        | none => .ok ()
    match validated with
    | .error e => .error e
    | .ok _ =>
      let lo := now - 24 * days_back
      let grouped :=
        match tsyms with
        | some ss => compareGroupedRowsBySymbol db ss
            (if use_specific then none else nets) lo now
        | none => compareGroupedRowsById db (tids.getD [])
            (if use_specific then none else nets) lo now
      let finals := (accumulateTokenMentions grouped).map
        (fun p => finalizeCompared p.2)
      .ok (finals.foldl (fun d p => dictInsertKV d p.1 p.2) [])

/-! ### `analyze_token_correlation` -/

/-- One correlated-token entry (the `combined_sentiment` sub-block of the
source is outside the verified scope and not modelled). -/
structure CorrelatedToken where
  token_id : Nat
  symbol : String
  name : String
  blockchain_network : Option String
  display_name : String
  co_mention_count : Nat
  correlation_percentage : Rat
deriving DecidableEq, Repr

/-- Result of `analyze_token_correlation`. -/
structure CorrelationResult where
  primary_id : Nat
  primary_symbol : String
  primary_total_mentions : Nat
  correlated_tokens : List CorrelatedToken
deriving DecidableEq, Repr

/-- The `primary_token_tweets` subquery: ids (with join multiplicity) of
windowed tweets mentioning the primary token. -/
def primaryTokenTweets (db : DB) (primaryId : Nat) (lo hi : Int) :
    List Nat :=
  (db.tweets.filter (fun tw => betweenB lo hi tw.created_at)).flatMap
    (fun tw => (db.mentions.filter (fun tm =>
      decide (tm.tweet_id = tw.id)
      && decide (tm.token_id = primaryId))).map (fun _ => tw.id))

/-- `COUNT(DISTINCT TokenMention.tweet_id)` of mentions of one candidate
token restricted to the primary token's tweets. -/
def coMentionTweetIds (db : DB) (tokId : Nat) (ptt : List Nat) : List Nat :=
  ((db.mentions.filter (fun tm => decide (tm.token_id = tokId)
    && decide (tm.tweet_id ∈ ptt))).map (fun tm => tm.tweet_id)).dedup

/-- `COUNT(DISTINCT TokenMention.id)` of the primary token's windowed
mentions (the `primary_mentions_count` query with its `EXISTS`
subquery). -/
def primaryMentionsCount (db : DB) (primaryId : Nat) (lo hi : Int) : Nat :=
  ((db.mentions.filter (fun tm => decide (tm.token_id = primaryId)
    && db.tweets.any (fun tw => decide (tw.id = tm.tweet_id)
      && betweenB lo hi tw.created_at))).map (fun tm => tm.id)).dedup.length

/-- Embedding of `analyze_token_correlation` (core_queries.py lines
781-943). -/
def analyze_token_correlation (db : DB) (primary_token_symbol : String)
    (blockchain_network : Option String)
    (days_back min_co_mentions limit : Int) (now : Int) :
    Except Err CorrelationResult :=
  if days_back ≤ 0 then
    .error (.invalidParameter "days_back must be a positive integer")
  else if min_co_mentions ≤ 0 then
    .error (.invalidParameter "min_co_mentions must be a positive integer")
  else if limit ≤ 0 then
    .error (.invalidParameter "limit must be a positive integer")
  else
    match db.tokens.find? (fun t => decide (t.symbol = primary_token_symbol)
        && netMatch blockchain_network t) with
    | none => .error (.notFound
        ("Token with symbol " ++ primary_token_symbol ++ " not found"))
    | some primary =>
      let lo := now - 24 * days_back
      let ptt := primaryTokenTweets db primary.id lo now
      let co_counts := db.tokens.dedup.filterMap (fun tok =>
        if tok.id = primary.id then none
        else
          let c := (coMentionTweetIds db tok.id ptt).length
          if min_co_mentions ≤ (c : Int) then some (tok, c) else none)
      let ranked := (co_counts.insertionSort
        (fun a b => b.2 ≤ a.2)).take limit.toNat
      let pmc := primaryMentionsCount db primary.id lo now
      .ok { primary_id := primary.id, primary_symbol := primary.symbol,
            primary_total_mentions := pmc,
            correlated_tokens := ranked.map (fun p =>
              { token_id := p.1.id, symbol := p.1.symbol, name := p.1.name,
                blockchain_network := p.1.blockchain_network,
                display_name := displayName p.1.symbol p.1.blockchain_network,
                co_mention_count := p.2,
                correlation_percentage :=
                  if 0 < pmc then pyround ((p.2 : Rat) / pmc * 100) 2
                  else 0 }) }

/-! ### `get_sentiment_momentum` -/

/-- Per-half statistics of a momentum entry. -/
structure PeriodStats where
  total_mentions : Nat
  sentiment_score : Rat
  breakdown : List SentimentCell
deriving DecidableEq, Repr

/-- The mention-growth field: a percentage, or the explicit `float("inf")`
marker the source stores when the first half has no mentions. -/
inductive MentionGrowth where
  | pct (q : Rat)
  | unbounded
deriving DecidableEq, Repr

/-- One token block of the momentum output. -/
structure MomentumEntry where
  symbol : String
  blockchain_network : Option String
  period_1 : PeriodStats
  period_2 : PeriodStats
  momentum : Rat
  mention_growth_percentage : MentionGrowth
deriving DecidableEq, Repr

/-- The token ids matching one (symbol, network) pair (network filter only
when the pair carries one, as in the source). -/
def momentumTokenIds (db : DB) (pr : String × Option String) : List Nat :=
  (db.tokens.filter (fun t => decide (t.symbol = pr.1) &&
    (match pr.2 with
     | some n => decide (t.blockchain_network = some n)
     | none => true))).map (fun t => t.id)

/-- Total mentions of a token-id set over one half-window. -/
def periodTotal (db : DB) (ids : List Nat) (lo hi : Int) : Nat :=
  sentCountFor db ids lo hi .positive + sentCountFor db ids lo hi .negative
    + sentCountFor db ids lo hi .neutral

/-- The per-half statistics block. -/
def mkPeriodStats (db : DB) (ids : List Nat) (lo hi : Int) : PeriodStats :=
  let c := fun s => sentCountFor db ids lo hi s
  let total := periodTotal db ids lo hi
  let score : Rat :=
    if 0 < total then ((c .positive : Rat) - c .negative) / total else 0
  { total_mentions := total, sentiment_score := pyround score 3,
    breakdown := sentimentList.map (fun s =>
      { sentiment := s, count := c s,
        percentage :=
          if 0 < total then pyround ((c s : Rat) / total * 100) 1
          else 0 }) }

/-- The loop body of the momentum analysis for one (symbol, network) pair:
`None` models the two `continue` branches (no token ids, or either half
below `min_mentions // 2`). -/
def momentumEntryFor (db : DB) (pr : String × Option String)
    (lo mid hi : Int) (min_mentions : Int) :
    Option (String × MomentumEntry) :=
  let token_ids := momentumTokenIds db pr
  if token_ids.isEmpty then none
  else
    let total1 := periodTotal db token_ids lo mid
    let total2 := periodTotal db token_ids mid hi
    if (total1 : Int) < min_mentions.fdiv 2
        ∨ (total2 : Int) < min_mentions.fdiv 2 then none
    else
      let c1 := fun s => sentCountFor db token_ids lo mid s
      let c2 := fun s => sentCountFor db token_ids mid hi s
      let score1 : Rat :=
        if 0 < total1 then ((c1 .positive : Rat) - c1 .negative) / total1
        else 0
      let score2 : Rat :=
        if 0 < total2 then ((c2 .positive : Rat) - c2 .negative) / total2
        else 0
      some (displayName pr.1 pr.2,
        { symbol := pr.1, blockchain_network := pr.2,
          period_1 := mkPeriodStats db token_ids lo mid,
          period_2 := mkPeriodStats db token_ids mid hi,
          momentum := pyround (score2 - score1) 3,
          mention_growth_percentage :=
            if 0 < total1 then
              .pct (pyround (((total2 : Rat) - total1) / total1 * 100) 1)
            else .unbounded })

/-- Full-window mention count of one (symbol, network) group of the
auto-selection query. -/
def pairMentionCount (db : DB) (nets : Option (List String)) (lo hi : Int)
    (pr : String × Option String) : Nat :=
  ((mentionRows db).filter (fun r => betweenB lo hi r.tw.created_at &&
    (match nets with
     | some ns => netIn ns r.tok
     | none => true))).countP (fun r =>
      decide (r.tok.symbol = pr.1)
      && decide (r.tok.blockchain_network = pr.2))

/-- The candidate (symbol, network) pairs the momentum loop analyses:
either auto-selected as the top-n most-mentioned groups meeting
`min_mentions` over the full window, or expanded from the caller-supplied
symbols. -/
def momentumPairs (db : DB) (tsyms : Option (List String))
    (nets : Option (List String)) (use_specific : Bool)
    (lo hi min_mentions top_n : Int) : List (String × Option String) :=
  match tsyms with
  | none =>
    let keys := (((mentionRows db).filter (fun r =>
      betweenB lo hi r.tw.created_at &&
      (match nets with
       | some ns => netIn ns r.tok
       | none => true))).map
        (fun r => (r.tok.symbol, r.tok.blockchain_network))).dedup
    let counted := keys.filterMap (fun k =>
      let c := pairMentionCount db nets lo hi k
      if min_mentions ≤ (c : Int) then some (k, c) else none)
    ((counted.insertionSort (fun a b => b.2 ≤ a.2)).take top_n.toNat).map
      (fun p => p.1)
  | some ss =>
    if use_specific then ss.zip ((nets.getD []).map some)
    else
      match nets with
      | some ns => ss.flatMap (fun s => ns.filterMap (fun n =>
          if db.tokens.any (fun t => decide (t.symbol = s)
              && decide (t.blockchain_network = some n))
          then some (s, some n) else none))
      | none => ss.flatMap (fun s =>
          ((db.tokens.filter (fun t => decide (t.symbol = s))).map
            (fun t => t.blockchain_network)).dedup.map (fun n => (s, n)))

/-- The loop body of the momentum dictionary fold. -/
def momentumStep (db : DB) (lo mid hi m : Int)
    (d : List (String × MomentumEntry)) (pr : String × Option String) :
    List (String × MomentumEntry) :=
  match momentumEntryFor db pr lo mid hi m with
  | some ke => dictInsertKV d ke.1 ke.2
  | none => d

/-- The analysis loop and final momentum sort shared by both selector
paths. -/
def momentumCore (db : DB) (tsyms : Option (List String))
    (nets : Option (List String)) (use_specific : Bool)
    (top_n days_back min_mentions now : Int) :
    List (String × MomentumEntry) :=
  let hi := now
  let mid := now - 24 * days_back.fdiv 2
  let lo := now - 24 * days_back
  let pairs := momentumPairs db tsyms nets use_specific lo hi min_mentions
    top_n
  let tokensDict := pairs.foldl
    (momentumStep db lo mid hi min_mentions) []
  tokensDict.insertionSort (fun a b => b.2.momentum ≤ a.2.momentum)

/-- Whether the momentum call received one network per symbol. -/
def momentumUseSpecific (tsyms nets : Option (List String)) : Bool :=
  match tsyms, nets with
  | some ss, some ns => decide (ns.length = ss.length)
  | _, _ => false

/-- Embedding of `get_sentiment_momentum` (core_queries.py lines 946-1193);
note `min_mentions` is rejected only when negative. -/
def get_sentiment_momentum (db : DB) (token_symbols : Option (List String))
    (blockchain_networks : Option (List String))
    (top_n days_back min_mentions : Int) (now : Int) :
    Except Err (List (String × MomentumEntry)) :=
  if days_back ≤ 0 then
    .error (.invalidParameter "days_back must be a positive integer")
  else if min_mentions < 0 then
    .error (.invalidParameter "min_mentions cannot be negative")
  else if top_n ≤ 0 then
    .error (.invalidParameter "top_n must be a positive integer")
  else
    let tsyms := denone token_symbols
    let nets := denone blockchain_networks
    let use_specific := momentumUseSpecific tsyms nets
    let validated : Except Err Unit :=
      match tsyms with
      | some ss =>
        if use_specific then
          match (ss.zip (nets.getD [])).find?
              (fun pr => !pairResolves db pr) with
          | some pr => .error (.notFound
              ("Token with symbol " ++ pr.1 ++ " on network " ++ pr.2
                ++ " not found"))
          | none => .ok ()
        else
          match nets with
          | some ns =>
            if ss.any (fun s => !(db.tokens.any (fun t =>
                decide (t.symbol = s) && netIn ns t))) then
              .error (.notFound "Token not found in specified networks")
            else .ok ()
          | none => .ok ()
      | none => .ok ()
    match validated with
    | .error e => .error e
    | .ok _ =>
      .ok (momentumCore db tsyms nets use_specific top_n days_back
        min_mentions now)

/-! ### `compare_blockchain_networks_sentiment` -/

/-- One network block of the network comparator output; `top_tokens` lists
`(token_id, symbol, mentions)` triples. -/
structure NetworkEntry where
  total_tokens : Nat
  total_mentions : Nat
  sentiment_score : Rat
  positive : SentimentDetail
  negative : SentimentDetail
  neutral : SentimentDetail
  top_tokens : List (Nat × String × Nat)
deriving DecidableEq, Repr

/-- The per-network block of `compare_blockchain_networks_sentiment`, or
`none` for the skip (`continue`) of networks with too few qualifying
tokens. -/
def networkEntryFor (db : DB) (lo hi : Int)
    (min_tokens_per_network min_mentions_per_token : Int) (nm : String) :
    Option (String × NetworkEntry) :=
  let toks := (db.tokens.dedup.filter (fun t =>
    decide (t.blockchain_network = some nm))).filterMap (fun t =>
      let c := tokenMentionCount db lo hi t
      if 0 < c ∧ min_mentions_per_token ≤ (c : Int) then some (t, c)
      else none)
  let ranked := toks.insertionSort (fun a b => b.2 ≤ a.2)
  if (ranked.length : Int) < min_tokens_per_network then none
  else
    let netRows := (joinedRows db).filter (fun r =>
      decide (r.tok.blockchain_network = some nm)
      && betweenB lo hi r.tw.created_at)
    let cells := fun s =>
      let xs := netRows.filter (fun r => decide (r.sa.sentiment = s))
      if xs.isEmpty then ((0 : Nat), (0 : Rat))
      else (xs.length, pyround
        ((xs.map (fun r => r.sa.confidence_score)).sum / (xs.length : Rat)) 2)
    let total := (cells .positive).1 + (cells .negative).1
      + (cells .neutral).1
    let detail := fun s =>
      ({ count := (cells s).1,
         percentage :=
           if 0 < total then pyround (((cells s).1 : Rat) / total * 100) 1
           else 0,
         avg_confidence := (cells s).2 } : SentimentDetail)
    some (nm,
      { total_tokens := ranked.length, total_mentions := total,
        sentiment_score :=
          if 0 < total then
            pyround ((((cells .positive).1 : Rat) - (cells .negative).1)
              / total) 2
          else 0,
        positive := detail .positive, negative := detail .negative,
        neutral := detail .neutral,
        top_tokens := (ranked.take 10).map
          (fun p => (p.1.id, p.1.symbol, p.2)) })

/-- Embedding of `compare_blockchain_networks_sentiment` (core_queries.py
lines 1196-1330). -/
def compare_blockchain_networks_sentiment (db : DB)
    (network_names : List String)
    (days_back min_tokens_per_network min_mentions_per_token : Int)
    (now : Int) : Except Err (List (String × NetworkEntry)) :=
  if network_names.isEmpty then
    .error (.invalidParameter "Must provide at least one network name")
  else if days_back ≤ 0 then
    .error (.invalidParameter "days_back must be a positive integer")
  else if network_names.any (fun nm =>
      !(db.networks.any (fun w => decide (w.name = nm)))) then
    .error (.notFound "Blockchain networks with names not found")
  else
    let lo := now - 24 * days_back
    let entries := network_names.filterMap (fun nm =>
      networkEntryFor db lo now min_tokens_per_network
        min_mentions_per_token nm)
    let d := entries.foldl (fun d p => dictInsertKV d p.1 p.2) []
    .ok (d.insertionSort (fun a b => b.2.total_mentions ≤ a.2.total_mentions))

/-! ### Structure of the timeline loop

`buildTimeline` consumes maximal runs of equal buckets; each emitted point
is the fold of one run starting from a fresh zero point.  The grouped rows
fed to it list each bucket once (deduplicated), each bucket run holding at
most one row per sentiment category. -/

/-- The loop body as a fold step over `(bucket, sentiment, count)` rows. -/
def stepRow (p : TimelinePoint) (x : Int × Sentiment × Nat) : TimelinePoint :=
  addCount p x.2.1 x.2.2

/-- The point produced from one maximal run of equal-bucket rows. -/
def runFold : List (Int × Sentiment × Nat) → Option TimelinePoint
  | [] => none
  | x :: xs => some (xs.foldl stepRow (addCount (newPoint x.1) x.2.1 x.2.2))

/-- Shared store for concrete witnesses: SOL has two positive and one
negative labelled mention inside the seven-day window ending at tick
1000. -/
def dbMain : DB :=
  { tokens := [⟨1, "SOL", "Solana", some "solana"⟩,
               ⟨2, "RAY", "Raydium", some "solana"⟩],
    tweets := [⟨1, 900⟩, ⟨2, 905⟩, ⟨3, 910⟩],
    sentiments := [⟨1, 1, .positive, 4/5⟩, ⟨2, 2, .negative, 3/5⟩,
                   ⟨3, 3, .positive, 1/2⟩],
    mentions := [⟨1, 1, 1⟩, ⟨2, 2, 1⟩, ⟨3, 3, 1⟩],
    networks := [⟨"solana", some "Solana"⟩] }

/-- The stats result the C6 witness inspects. -/
def statsWitnessRes : TokenSentimentStats :=
  statsCore dbMain (some "SOL") none none 7 1000

/-- A minimal store for evaluation-heavy witnesses: one SOL mention with a
positive label and one with a negative label, both in the same day
bucket. -/
def dbSmall : DB :=
  { tokens := [⟨1, "SOL", "Solana", none⟩],
    tweets := [⟨1, 900⟩, ⟨2, 910⟩],
    sentiments := [⟨1, 1, .positive, 1/2⟩, ⟨2, 2, .negative, 1/2⟩],
    mentions := [⟨1, 1, 1⟩, ⟨2, 2, 1⟩],
    networks := [] }

/-- The timeline result the C6 witness inspects, and its first point. -/
def timelineWitnessRes : TokenTimeline :=
  ((get_token_sentiment_timeline dbSmall (some "SOL") none none 7 "day"
    1000).toOption).getD ⟨"", none, []⟩

/-- Store for the C3 witness, the spec's own scenario: `days_back = 6`
split at tick 928; no SOL mentions in the first half, four in the
second. -/
def dbGrowth : DB :=
  { tokens := [⟨1, "SOL", "Solana", none⟩],
    tweets := [⟨1, 950⟩, ⟨2, 951⟩, ⟨3, 952⟩, ⟨4, 953⟩],
    sentiments := [⟨1, 1, .positive, 1/2⟩, ⟨2, 2, .positive, 1/2⟩,
                   ⟨3, 3, .negative, 1/2⟩, ⟨4, 4, .neutral, 1/2⟩],
    mentions := [⟨1, 1, 1⟩, ⟨2, 2, 1⟩, ⟨3, 3, 1⟩, ⟨4, 4, 1⟩],
    networks := [] }

/-- The momentum output of the C3 witness scenario and its sole entry. -/
def momGrowthList : List (String × MomentumEntry) :=
  (get_sentiment_momentum dbGrowth (some ["SOL"]) none 5 6 1
    1000).toOption.getD []

/-- The sole entry of `momGrowthList`. -/
def momGrowthEntry : String × MomentumEntry :=
  momGrowthList.headD ("",
    { symbol := "", blockchain_network := none,
      period_1 := ⟨0, 0, []⟩, period_2 := ⟨0, 0, []⟩,
      momentum := 0, mention_growth_percentage := .pct 0 })

/-- Store for the C4 counterexample: one SOL mention in the first half
(ticks 856-928), two in the second, `min_mentions = 3`. -/
def dbHalves : DB :=
  { tokens := [⟨1, "SOL", "Solana", none⟩],
    tweets := [⟨1, 900⟩, ⟨2, 950⟩, ⟨3, 960⟩],
    sentiments := [⟨1, 1, .positive, 1/2⟩, ⟨2, 2, .positive, 1/2⟩,
                   ⟨3, 3, .negative, 1/2⟩],
    mentions := [⟨1, 1, 1⟩, ⟨2, 2, 1⟩, ⟨3, 3, 1⟩],
    networks := [] }

/-- The momentum output of the C4 store and its sole entry. -/
def momHalvesList : List (String × MomentumEntry) :=
  (get_sentiment_momentum dbHalves (some ["SOL"]) none 5 6 3
    1000).toOption.getD []

/-- The sole entry of `momHalvesList`. -/
def momHalvesEntry : String × MomentumEntry :=
  momHalvesList.headD ("",
    { symbol := "", blockchain_network := none,
      period_1 := ⟨0, 0, []⟩, period_2 := ⟨0, 0, []⟩,
      momentum := 0, mention_growth_percentage := .pct 0 })

/-- The windowed primary-mention filter of `primaryMentionsCount`. -/
def primaryMentionRows (db : DB) (primaryId : Nat) (lo hi : Int) :
    List TokenMention :=
  db.mentions.filter (fun tm => decide (tm.token_id = primaryId)
    && db.tweets.any (fun tw => decide (tw.id = tm.tweet_id)
      && betweenB lo hi tw.created_at))

/-- Store for the C7 counterexample and witness: SOL is mentioned in three
windowed tweets, RAY co-occurs in one of them. -/
def dbCorr : DB :=
  { tokens := [⟨1, "SOL", "Solana", none⟩, ⟨2, "RAY", "Raydium", none⟩],
    tweets := [⟨1, 900⟩, ⟨2, 905⟩, ⟨3, 910⟩],
    sentiments := [],
    mentions := [⟨1, 1, 1⟩, ⟨2, 2, 1⟩, ⟨3, 3, 1⟩, ⟨4, 1, 2⟩],
    networks := [] }

/-- The sole correlated entry of the C7 witness store. -/
def corrEntry : CorrelatedToken :=
  { token_id := 2, symbol := "RAY", name := "Raydium",
    blockchain_network := none, display_name := "RAY",
    co_mention_count := 1, correlation_percentage := 3333/100 }

/-- The correlation result of the C7 witness. -/
def corrRes : CorrelationResult :=
  { primary_id := 1, primary_symbol := "SOL", primary_total_mentions := 3,
    correlated_tokens := [corrEntry] }

/-- Count of one category in a breakdown-cell list. -/
def cellCount (l : List SentimentCell) (s : Sentiment) : Nat :=
  match l.find? (fun c => decide (c.sentiment = s)) with
  | some c => c.count
  | none => 0

/-- The invariant maintained by the comparator accumulator: every stored
per-category count is bounded by the stored total, and positive plus
negative together stay within the total. -/
def accumInv (a : TokenAccum) : Prop :=
  (getSent a.sentiments .positive).1 ≤ a.total ∧
  (getSent a.sentiments .negative).1 ≤ a.total ∧
  (getSent a.sentiments .neutral).1 ≤ a.total ∧
  (getSent a.sentiments .positive).1 + (getSent a.sentiments .negative).1
    ≤ a.total

/-- The sentiment-score property of C5, for one reported score with
reported counts `p`, `n` and total `t`: zero when the total is zero,
always within `[-1, 1]`, and within rounding distance (at most `1/100`)
of `(p - n) / t` when the total is positive. -/
def scoreSpec (score : Rat) (p n t : Nat) : Prop :=
  (t = 0 → score = 0) ∧ (-1 : Rat) ≤ score ∧ score ≤ 1 ∧
  (0 < t → |score - ((p : Rat) - n) / t| ≤ 1/100)

/-- The sole entry of the comparator output on `dbMain` for the C5
witness. -/
def cmpEntry : String × ComparedToken :=
  ("SOL (solana)",
    { symbol := "SOL", blockchain_network := some "solana",
      total_mentions := 3, sentiment_score := 33/100,
      positive := ⟨2, 6667/100, 13/20⟩, negative := ⟨1, 3333/100, 3/5⟩,
      neutral := ⟨0, 0, 0⟩ })

/-- The comparator output of the C5 witness. -/
def cmpOut : List (String × ComparedToken) := [cmpEntry]

/-- The sole entry of the most-discussed output on `dbMain` for the C5
witness. -/
def dscEntry : DiscussedToken :=
  { token_id := 1, symbol := "SOL", name := "Solana",
    blockchain_network := some "solana", display_name := "SOL (solana)",
    mention_count := 3, sentiment_score := 33/100,
    sentiment_breakdown :=
      [⟨.positive, 2, 6667/100⟩, ⟨.negative, 1, 3333/100⟩,
        ⟨.neutral, 0, 0⟩] }

/-- The most-discussed output of the C5 witness. -/
def dscOut : List DiscussedToken := [dscEntry]

/-- The sole entry of the network-comparison output on `dbMain` for the
C5 witness. -/
def netEntry : String × NetworkEntry :=
  ("solana",
    { total_tokens := 1, total_mentions := 3, sentiment_score := 33/100,
      positive := ⟨2, 667/10, 13/20⟩, negative := ⟨1, 333/10, 3/5⟩,
      neutral := ⟨0, 0, 0⟩, top_tokens := [(1, "SOL", 3)] })

/-- The network-comparison output of the C5 witness. -/
def netOut : List (String × NetworkEntry) := [netEntry]

/-! ### Similarity matcher (`find_similar_tokens`) -/

/-- Result entry of `find_similar_tokens`. -/
structure SimilarToken where
  id : Nat
  symbol : String
  name : String
  blockchain_network : Option String
  similarity : Rat
deriving DecidableEq, Repr

/-- The similarity computation of `find_similar_tokens`: `1.0` on equality;
on substring containment in either direction the source computes
`len(min(a, b)) / len(max(a, b))` with the Python builtins `min`/`max`,
which compare strings lexicographically; other candidates yield `none`
(the `continue` branch). -/
def similarityScore (ns tn : List Char) : Option Rat :=
  if ns = tn then some 1
  else if substr ns tn || substr tn ns then
    some (((pymin ns tn).length : Rat) / ((pymax ns tn).length : Rat))
  else none

/-- Embedding of `find_similar_tokens` (core_queries.py lines 1916-1978). -/
def find_similar_tokens (db : DB) (token_symbol : String)
    (min_similarity : Rat) (exclude_token_id : Option Nat) :
    List SimilarToken :=
  let all_tokens :=
    match exclude_token_id with
    | some ex => db.tokens.filter (fun t : BlockchainToken => decide (t.id ≠ ex))
    | none => db.tokens
  let normalized_symbol := pyNormalize token_symbol
  let similar_tokens := all_tokens.filterMap (fun token : BlockchainToken =>
    match similarityScore normalized_symbol (pyNormalize token.symbol) with
    | some similarity =>
      if min_similarity ≤ similarity then
        some { id := token.id, symbol := token.symbol, name := token.name,
               blockchain_network := token.blockchain_network,
               similarity := similarity : SimilarToken }
      else none
    | none => none)
  similar_tokens.insertionSort (fun a b => b.similarity ≤ a.similarity)

/-- Store exhibiting the lexicographic `min`/`max` slip: one token whose
symbol strictly contains the reference symbol but sorts before it. -/
def dbSimilarity : DB :=
  { tokens := [⟨1, "AXYZ", "A token", none⟩],
    tweets := [], sentiments := [], mentions := [], networks := [] }

/-- Store for the C10 witness: the excluded token id 5 is an exact symbol
match and would otherwise head the result. -/
def dbExclude : DB :=
  { tokens := [⟨5, "SOL", "Solana", none⟩, ⟨6, "SOL", "Solana2", none⟩],
    tweets := [], sentiments := [], mentions := [], networks := [] }

/-! ## Theorems -/

theorem roundHalfEven_ge_floor (x : Rat) : (⌊x⌋ : Int) ≤ roundHalfEven x := by
  unfold roundHalfEven
  split
  · exact le_refl _
  · split
    · omega
    · split <;> omega

theorem roundHalfEven_le_floor_add_one (x : Rat) :
    roundHalfEven x ≤ ⌊x⌋ + 1 := by
  unfold roundHalfEven
  split
  · omega
  · split
    · omega
    · split <;> omega

theorem abs_roundHalfEven_sub (x : Rat) :
    |(roundHalfEven x : Rat) - x| ≤ 1/2 := by
  have hfl : (⌊x⌋ : Rat) ≤ x := Int.floor_le x
  have hfu : x < (⌊x⌋ : Rat) + 1 := Int.lt_floor_add_one x
  unfold roundHalfEven
  split
  · rename_i h
    rw [abs_le]
    constructor <;> linarith
  · rename_i h
    push_neg at h
    split
    · rename_i h2
      rw [abs_le]
      constructor <;> push_cast <;> linarith
    · rename_i h2
      push_neg at h2
      have hx : x - (⌊x⌋ : Rat) = 1/2 := le_antisymm h2 h
      split <;> (rw [abs_le]; constructor <;> push_cast <;> linarith)

theorem abs_pyround_sub (x : Rat) (n : Nat) :
    |pyround x n - x| ≤ 1 / (2 * (10 : Rat) ^ n) := by
  have hpow : (0 : Rat) < (10 : Rat) ^ n := by positivity
  have h := abs_roundHalfEven_sub (x * (10 : Rat) ^ n)
  unfold pyround
  have hrw : (roundHalfEven (x * (10 : Rat) ^ n) : Rat) / (10 : Rat) ^ n - x
      = ((roundHalfEven (x * (10 : Rat) ^ n) : Rat) - x * (10 : Rat) ^ n)
        / (10 : Rat) ^ n := by
    field_simp
    ring
  rw [hrw, abs_div, abs_of_pos hpow, div_le_div_iff₀ hpow (by positivity)]
  calc |(roundHalfEven (x * (10 : Rat) ^ n) : Rat) - x * (10 : Rat) ^ n|
        * (2 * (10 : Rat) ^ n)
      ≤ (1/2) * (2 * (10 : Rat) ^ n) := by
        apply mul_le_mul_of_nonneg_right h
        positivity
    _ = 1 * (10 : Rat) ^ n := by ring

theorem roundHalfEven_intCast (B : Int) : roundHalfEven (B : Rat) = B := by
  unfold roundHalfEven
  rw [Int.floor_intCast]
  simp

theorem le_roundHalfEven_of_intCast_le {A : Int} {y : Rat} (h : (A : Rat) ≤ y) :
    A ≤ roundHalfEven y :=
  le_trans (Int.le_floor.mpr h) (roundHalfEven_ge_floor y)

theorem roundHalfEven_le_of_le_intCast {B : Int} {y : Rat} (h : y ≤ (B : Rat)) :
    roundHalfEven y ≤ B := by
  rcases eq_or_lt_of_le h with heq | hlt
  · rw [heq, roundHalfEven_intCast]
  · have hfl : ⌊y⌋ < B := Int.floor_lt.mpr hlt
    have := roundHalfEven_le_floor_add_one y
    omega

/-- Rounding a rational that lies between integer bounds stays between
those bounds. -/
theorem pyround_mem_Icc {a b : Int} {x : Rat} (n : Nat)
    (hl : (a : Rat) ≤ x) (hu : x ≤ (b : Rat)) :
    (a : Rat) ≤ pyround x n ∧ pyround x n ≤ (b : Rat) := by
  have hpow : (0 : Rat) < (10 : Rat) ^ n := by positivity
  have hlo : (a * 10 ^ n : Int) ≤ roundHalfEven (x * (10 : Rat) ^ n) := by
    apply le_roundHalfEven_of_intCast_le
    push_cast
    exact mul_le_mul_of_nonneg_right hl (le_of_lt hpow)
  have hhi : roundHalfEven (x * (10 : Rat) ^ n) ≤ (b * 10 ^ n : Int) := by
    apply roundHalfEven_le_of_le_intCast
    push_cast
    exact mul_le_mul_of_nonneg_right hu (le_of_lt hpow)
  constructor
  · rw [pyround, le_div_iff₀ hpow]
    calc (a : Rat) * (10 : Rat) ^ n = ((a * 10 ^ n : Int) : Rat) := by push_cast; ring
      _ ≤ (roundHalfEven (x * (10 : Rat) ^ n) : Rat) := by exact_mod_cast hlo
  · rw [pyround, div_le_iff₀ hpow]
    calc (roundHalfEven (x * (10 : Rat) ^ n) : Rat)
        ≤ ((b * 10 ^ n : Int) : Rat) := by exact_mod_cast hhi
      _ = (b : Rat) * (10 : Rat) ^ n := by push_cast; ring

theorem buildTimeline_append_run (b : Int) :
    ∀ (run rest : List (Int × Sentiment × Nat)) (d : TimelinePoint),
      (∀ x ∈ run, x.1 = b) →
      (∀ y ∈ rest.head?, y.1 ≠ b) →
      buildTimeline (run ++ rest) (some (b, d)) =
        run.foldl stepRow d :: buildTimeline rest none := by
  intro run
  induction run with
  | nil =>
    intro rest d _ hrest
    cases rest with
    | nil => rfl
    | cons y ys =>
      obtain ⟨by_, s, c⟩ := y
      have hne : by_ ≠ b := hrest _ rfl
      simp only [List.nil_append, List.foldl_nil, buildTimeline, if_neg hne]
  | cons x run' ih =>
    intro rest d hrun hrest
    obtain ⟨bx, s, c⟩ := x
    have hbx : bx = b := hrun _ (List.mem_cons_self _ _)
    subst hbx
    simp only [List.cons_append, buildTimeline, if_pos rfl, List.foldl_cons]
    exact ih rest (stepRow d (bx, s, c)) (fun x hx => hrun x (List.mem_cons_of_mem _ hx)) hrest

theorem buildTimeline_flatMap_points
    (runOf : Int → List (Int × Sentiment × Nat)) :
    ∀ (bs : List Int), bs.Pairwise (· ≠ ·) →
      (∀ b ∈ bs, ∀ x ∈ runOf b, x.1 = b) →
      ∀ p ∈ buildTimeline (bs.flatMap runOf) none,
        ∃ b ∈ bs, runFold (runOf b) = some p := by
  intro bs
  induction bs with
  | nil => intro _ _ p hp; simp [buildTimeline] at hp
  | cons b bs' ih =>
    intro hpw hbuckets p hp
    have hpw' : bs'.Pairwise (· ≠ ·) := (List.pairwise_cons.mp hpw).2
    have hbne : ∀ b' ∈ bs', b ≠ b' := (List.pairwise_cons.mp hpw).1
    have hrest_head : ∀ y ∈ (bs'.flatMap runOf).head?, y.1 ≠ b := by
      intro y hy
      have hmem : y ∈ bs'.flatMap runOf := by
        cases hh : (bs'.flatMap runOf).head? with
        | none => rw [hh] at hy; cases hy
        | some z =>
          rw [hh] at hy
          cases hy
          exact List.mem_of_mem_head? hh
      obtain ⟨b', hb', hyb'⟩ := List.mem_flatMap.mp hmem
      have : y.1 = b' := hbuckets b' (List.mem_cons_of_mem _ hb') y hyb'
      rw [this]
      exact fun hc => hbne b' hb' hc.symm
    rw [List.flatMap_cons] at hp
    cases hrb : runOf b with
    | nil =>
      rw [hrb] at hp
      simp only [List.nil_append] at hp
      obtain ⟨b', hb', hfold⟩ := ih hpw'
        (fun b' hb' => hbuckets b' (List.mem_cons_of_mem _ hb')) p hp
      exact ⟨b', List.mem_cons_of_mem _ hb', hfold⟩
    | cons x xs =>
      obtain ⟨bx, s, c⟩ := x
      have hbx : bx = b := by
        have := hbuckets b (List.mem_cons_self _ _) (bx, s, c)
        simp [hrb] at this
        exact this
      subst hbx
      rw [hrb] at hp
      simp only [List.cons_append, buildTimeline, List.append_eq] at hp
      rw [buildTimeline_append_run bx xs (bs'.flatMap runOf)
        (addCount (newPoint bx) s c)
        (fun x hx => by
          have := hbuckets bx (List.mem_cons_self _ _) x
          exact this (by rw [hrb]; exact List.mem_cons_of_mem _ hx))
        hrest_head] at hp
      cases hp with
      | head =>
        refine ⟨bx, (List.mem_cons_self _ _), ?_⟩
        rw [hrb]
        rfl
      | tail _ hp' =>
        obtain ⟨b', hb', hfold⟩ := ih hpw'
          (fun b' hb' => hbuckets b' (List.mem_cons_of_mem _ hb')) p hp'
        exact ⟨b', List.mem_cons_of_mem _ hb', hfold⟩

/-- Over one bucket of the grouped timeline rows (at most one row per
sentiment category) the emitted point's three counts sum to its total. -/
theorem runFold_counts_sum (rows : List JoinedRow) (interval : String)
    (b : Int) (p : TimelinePoint)
    (h : runFold (sentimentList.filterMap (fun s =>
      let c := rows.countP (fun r =>
        decide (dateTrunc interval r.tw.created_at = b)
        && decide (r.sa.sentiment = s))
      if c = 0 then none else some (b, s, c))) = some p) :
    p.positive + p.negative + p.neutral = p.total := by
  simp only [sentimentList, List.filterMap] at h
  set c1 := rows.countP (fun r =>
    decide (dateTrunc interval r.tw.created_at = b)
    && decide (r.sa.sentiment = Sentiment.positive)) with hc1
  set c2 := rows.countP (fun r =>
    decide (dateTrunc interval r.tw.created_at = b)
    && decide (r.sa.sentiment = Sentiment.negative)) with hc2
  set c3 := rows.countP (fun r =>
    decide (dateTrunc interval r.tw.created_at = b)
    && decide (r.sa.sentiment = Sentiment.neutral)) with hc3
  by_cases h1 : c1 = 0 <;> by_cases h2 : c2 = 0 <;> by_cases h3 : c3 = 0 <;>
    simp only [h1, h2, h3, if_true, if_false, reduceIte, runFold,
      List.foldl_cons, List.foldl_nil, stepRow] at h <;>
    cases h <;>
    simp [addCount, newPoint]

theorem withPcts_total (p : TimelinePoint) : (withPcts p).total = p.total := by
  unfold withPcts; split <;> rfl

theorem withPcts_positive (p : TimelinePoint) :
    (withPcts p).positive = p.positive := by
  unfold withPcts; split <;> rfl

theorem withPcts_negative (p : TimelinePoint) :
    (withPcts p).negative = p.negative := by
  unfold withPcts; split <;> rfl

theorem withPcts_neutral (p : TimelinePoint) :
    (withPcts p).neutral = p.neutral := by
  unfold withPcts; split <;> rfl

/-- C6: in every sentiment breakdown produced by an aggregation — the
per-token stats and every timeline point — the per-category counts sum
exactly to the reported total.  For the stats result the breakdown lists
the categories present in the window; for a timeline point the three
category fields sum to `total`. -/
theorem breakdown_counts_sum_to_total :
    (∀ (db : DB) (ts : Option String) (tid : Option Nat) (bn : Option String)
      (d now : Int) (res : TokenSentimentStats),
      get_token_sentiment_stats db ts tid bn d now = .ok res →
      (res.sentiment_breakdown.map (fun e => e.count)).sum
        = res.total_mentions) ∧
    (∀ (db : DB) (ts : Option String) (tid : Option Nat) (bn : Option String)
      (d : Int) (iv : String) (now : Int) (res : TokenTimeline),
      get_token_sentiment_timeline db ts tid bn d iv now = .ok res →
      ∀ p ∈ res.timeline, p.positive + p.negative + p.neutral = p.total) := by
  constructor
  · intro db ts tid bn d now res h
    unfold get_token_sentiment_stats at h
    split at h
    · cases h
    · split at h
      · cases h
        simp only [statsCore, List.map_map]
        rfl
      · cases h
  · intro db ts tid bn d iv now res h
    unfold get_token_sentiment_timeline at h
    split at h
    · cases h
    · split at h
      · cases h
      · split at h
        · cases h
        · split at h
          · cases h
          · cases h
            intro p hp
            simp only [List.mem_map] at hp
            obtain ⟨q, hq, rfl⟩ := hp
            simp only [timelineGroupedRows] at hq
            obtain ⟨b, _, hfold⟩ :=
              buildTimeline_flatMap_points _ _
                (by
                  have := (List.perm_insertionSort
                    (fun a b : Int => a ≤ b)
                    ((((joinedRows db).filter (fun r =>
                      betweenB (now - 24 * d) now r.tw.created_at &&
                      tokenFilter ts tid bn r.tok)).map
                        (fun r => dateTrunc iv r.tw.created_at)).dedup))
                  exact this.nodup_iff.mpr (List.nodup_dedup _))
                (by
                  intro b hb x hx
                  simp only [List.mem_filterMap] at hx
                  obtain ⟨s, _, hs⟩ := hx
                  by_cases hc : (((joinedRows db).filter (fun r =>
                      betweenB (now - 24 * d) now r.tw.created_at &&
                      tokenFilter ts tid bn r.tok)).countP (fun r =>
                        decide (dateTrunc iv r.tw.created_at = b)
                        && decide (r.sa.sentiment = s))) = 0
                  · rw [if_pos hc] at hs; cases hs
                  · rw [if_neg hc] at hs; cases hs; rfl)
                q hq
            have hsum := runFold_counts_sum _ iv b q hfold
            rw [withPcts_total, withPcts_positive, withPcts_negative,
              withPcts_neutral]
            exact hsum

/-- C6 witness: both parts of the theorem applied to the concrete store
`dbMain` (three labelled SOL mentions, one day bucket). -/
theorem breakdown_counts_sum_to_total_witness :
    (statsWitnessRes.sentiment_breakdown.map (fun e => e.count)).sum
      = statsWitnessRes.total_mentions ∧
    ((timelineWitnessRes.timeline.headD (newPoint 0)).positive
      + (timelineWitnessRes.timeline.headD (newPoint 0)).negative
      + (timelineWitnessRes.timeline.headD (newPoint 0)).neutral
      = (timelineWitnessRes.timeline.headD (newPoint 0)).total) := by
  constructor
  · exact breakdown_counts_sum_to_total.1 dbMain (some "SOL") none none 7 1000
      statsWitnessRes (by with_unfolding_all rfl)
  · exact breakdown_counts_sum_to_total.2 dbSmall (some "SOL") none none 7
      "day" 1000 timelineWitnessRes (by with_unfolding_all rfl)
      (timelineWitnessRes.timeline.headD (newPoint 0))
      (of_decide_eq_true (by with_unfolding_all rfl))

/-- C9: for a valid token selector whose window holds no mentions, the
stats call returns zero totals and an empty breakdown (hence every
percentage in it is zero) instead of raising; and with a symbol selector
supplied, an error is raised exactly when the selector does not resolve,
and that error is always `NotFound`. -/
theorem stats_empty_window_not_error :
    (∀ (db : DB) (sym : String) (tid : Option Nat) (bn : Option String)
      (d now : Int),
      selectorResolves db (some sym) tid bn = true →
      ((joinedRows db).filter (fun r =>
        betweenB (now - 24 * d) now r.tw.created_at &&
        tokenFilter (some sym) tid bn r.tok)) = [] →
      get_token_sentiment_stats db (some sym) tid bn d now =
        .ok { token := statsTokenInfo (some sym) tid bn,
              blockchain_network := bn, total_mentions := 0,
              sentiment_breakdown := [] }) ∧
    (∀ (db : DB) (sym : String) (tid : Option Nat) (bn : Option String)
      (d now : Int),
      ((∃ e, get_token_sentiment_stats db (some sym) tid bn d now = .error e)
        ↔ selectorResolves db (some sym) tid bn = false) ∧
      (∀ e, get_token_sentiment_stats db (some sym) tid bn d now = .error e →
        ∃ m, e = .notFound m)) := by
  constructor
  · intro db sym tid bn d now hres hempty
    unfold get_token_sentiment_stats
    rw [if_neg (by simp), if_pos hres]
    simp only [statsCore, hempty]
    rfl
  · intro db sym tid bn d now
    constructor
    · unfold get_token_sentiment_stats
      rw [if_neg (by simp)]
      cases hres : selectorResolves db (some sym) tid bn with
      | true => simp
      | false => simp
    · intro e he
      unfold get_token_sentiment_stats at he
      rw [if_neg (by simp)] at he
      split at he
      · cases he
      · cases he
        exact ⟨_, rfl⟩

/-- C9 witness: on `dbMain` the symbol RAY resolves but has no mentions in
the window, so the call returns zeroed statistics; and the unknown symbol
NOPE yields a `NotFound` error. -/
theorem stats_empty_window_not_error_witness :
    (get_token_sentiment_stats dbMain (some "RAY") none none 7 1000 =
      .ok { token := "RAY", blockchain_network := none, total_mentions := 0,
            sentiment_breakdown := [] }) ∧
    ((∃ e, get_token_sentiment_stats dbMain (some "NOPE") none none 7 1000
      = .error e) ↔ selectorResolves dbMain (some "NOPE") none none = false) := by
  constructor
  · exact stats_empty_window_not_error.1 dbMain "RAY" none none 7 1000
      (by with_unfolding_all rfl) (by with_unfolding_all rfl)
  · exact (stats_empty_window_not_error.2 dbMain "NOPE" none none 7 1000).1

/-! ### Dictionary lemmas -/

theorem mem_dictUpsert {α : Type} (d : List (String × α)) (k : String)
    (f : Option α → α) :
    ∀ p ∈ dictUpsert d k f, p ∈ d ∨
      (p.1 = k ∧ (p.2 = f none ∨ ∃ b, p.2 = f (some b))) := by
  induction d with
  | nil =>
    intro p hp
    simp only [dictUpsert, List.mem_singleton] at hp
    subst hp
    exact Or.inr ⟨rfl, Or.inl rfl⟩
  | cons q rest ih =>
    intro p hp
    simp only [dictUpsert] at hp
    split at hp
    · rcases List.mem_cons.mp hp with h | h
      · subst h
        exact Or.inr ⟨rfl, Or.inr ⟨q.2, rfl⟩⟩
      · exact Or.inl (List.mem_cons_of_mem _ h)
    · rcases List.mem_cons.mp hp with h | h
      · exact Or.inl (h ▸ List.mem_cons_self _ _)
      · rcases ih p h with h2 | h2
        · exact Or.inl (List.mem_cons_of_mem _ h2)
        · exact Or.inr h2

theorem mem_dictInsertKV {α : Type} (d : List (String × α)) (k : String)
    (v : α) : ∀ p ∈ dictInsertKV d k v, p ∈ d ∨ p = (k, v) := by
  intro p hp
  rcases mem_dictUpsert d k (fun _ => v) p hp with h | ⟨hk, hv⟩
  · exact Or.inl h
  · right
    rcases hv with hv | ⟨_, hv⟩ <;>
      exact Prod.ext hk hv

theorem dictUpsert_key_self {α : Type} (d : List (String × α)) (k : String)
    (f : Option α → α) : ∃ w, (k, w) ∈ dictUpsert d k f := by
  induction d with
  | nil => exact ⟨f none, List.mem_singleton_self _⟩
  | cons q rest ih =>
    simp only [dictUpsert]
    split
    · exact ⟨f (some q.2), List.mem_cons_self _ _⟩
    · obtain ⟨w, hw⟩ := ih
      exact ⟨w, List.mem_cons_of_mem _ hw⟩

theorem dictUpsert_key_preserved {α : Type} (d : List (String × α))
    (k' : String) (f : Option α → α) (k : String)
    (h : ∃ w, (k, w) ∈ d) : ∃ w, (k, w) ∈ dictUpsert d k' f := by
  induction d with
  | nil => obtain ⟨w, hw⟩ := h; cases hw
  | cons q rest ih =>
    obtain ⟨w, hw⟩ := h
    simp only [dictUpsert]
    split
    · rename_i hq
      rcases List.mem_cons.mp hw with h1 | h1
      · have hk : k = k' := by rw [← hq, ← h1]
        subst hk
        exact ⟨f (some q.2), List.mem_cons_self _ _⟩
      · exact ⟨w, List.mem_cons_of_mem _ h1⟩
    · rcases List.mem_cons.mp hw with h1 | h1
      · exact ⟨w, h1 ▸ List.mem_cons_self _ _⟩
      · obtain ⟨w2, hw2⟩ := ih ⟨w, h1⟩
        exact ⟨w2, List.mem_cons_of_mem _ hw2⟩

theorem dictUpsert_forall {α : Type} (P : α → Prop) (d : List (String × α))
    (k : String) (f : Option α → α) (hd : ∀ p ∈ d, P p.2)
    (h0 : P (f none)) (h1 : ∀ b, P b → P (f (some b))) :
    ∀ p ∈ dictUpsert d k f, P p.2 := by
  induction d with
  | nil =>
    intro p hp
    simp only [dictUpsert, List.mem_singleton] at hp
    rw [hp]
    exact h0
  | cons q rest ih =>
    intro p hp
    simp only [dictUpsert] at hp
    split at hp
    · rcases List.mem_cons.mp hp with h | h
      · rw [h]
        exact h1 q.2 (hd q (List.mem_cons_self _ _))
      · exact hd p (List.mem_cons_of_mem _ h)
    · rcases List.mem_cons.mp hp with h | h
      · exact hd p (h ▸ List.mem_cons_self _ _)
      · exact ih (fun r hr => hd r (List.mem_cons_of_mem _ hr)) p h

/-! ### Momentum lemmas (C3, C4) -/

theorem momentumEntryFor_spec (db : DB) (pr : String × Option String)
    (lo mid hi m : Int) (ke : String × MomentumEntry)
    (h : momentumEntryFor db pr lo mid hi m = some ke) :
    ke.1 = displayName pr.1 pr.2 ∧
    ke.2.period_1.total_mentions
      = periodTotal db (momentumTokenIds db pr) lo mid ∧
    ke.2.period_2.total_mentions
      = periodTotal db (momentumTokenIds db pr) mid hi ∧
    m.fdiv 2 ≤ (ke.2.period_1.total_mentions : Int) ∧
    m.fdiv 2 ≤ (ke.2.period_2.total_mentions : Int) ∧
    (ke.2.period_1.total_mentions = 0 →
      ke.2.mention_growth_percentage = .unbounded) := by
  simp only [momentumEntryFor] at h
  split at h
  · cases h
  · split at h
    · cases h
    · rename_i hthr
      push_neg at hthr
      cases h
      refine ⟨rfl, rfl, rfl, hthr.1, hthr.2, ?_⟩
      intro h0
      have : ¬ (0 < periodTotal db (momentumTokenIds db pr) lo mid) := by
        simp only [mkPeriodStats] at h0
        omega
      simp only [mkPeriodStats, if_neg this]

theorem momentumEntryFor_some (db : DB) (pr : String × Option String)
    (lo mid hi m : Int) (hids : (momentumTokenIds db pr).isEmpty = false)
    (h1 : m.fdiv 2 ≤ (periodTotal db (momentumTokenIds db pr) lo mid : Int))
    (h2 : m.fdiv 2 ≤ (periodTotal db (momentumTokenIds db pr) mid hi : Int)) :
    ∃ e, momentumEntryFor db pr lo mid hi m
      = some (displayName pr.1 pr.2, e) := by
  unfold momentumEntryFor
  rw [if_neg (by simp [hids]), if_neg (by omega)]
  exact ⟨_, rfl⟩

theorem momentum_fold_forall (db : DB) (lo mid hi m : Int)
    (P : String × MomentumEntry → Prop)
    (hstep : ∀ pr ke, momentumEntryFor db pr lo mid hi m = some ke → P ke) :
    ∀ (pairs : List (String × Option String))
      (d0 : List (String × MomentumEntry)), (∀ p ∈ d0, P p) →
      ∀ p ∈ pairs.foldl (momentumStep db lo mid hi m) d0, P p := by
  intro pairs
  induction pairs with
  | nil => intro d0 hd0 p hp; exact hd0 p hp
  | cons q rest ih =>
    intro d0 hd0 p hp
    simp only [List.foldl_cons] at hp
    refine ih (momentumStep db lo mid hi m d0 q) ?_ p hp
    intro r hr
    unfold momentumStep at hr
    split at hr
    · rename_i ke hke
      rcases mem_dictInsertKV _ _ _ r hr with h | h
      · exact hd0 r h
      · rw [h]
        have := hstep q ke hke
        cases ke
        exact this
    · exact hd0 r hr

theorem momentum_fold_key_mem (db : DB) (lo mid hi m : Int) :
    ∀ (pairs : List (String × Option String))
      (d0 : List (String × MomentumEntry)) (pr : String × Option String)
      (ke : String × MomentumEntry), pr ∈ pairs →
      momentumEntryFor db pr lo mid hi m = some ke →
      ∃ w, (ke.1, w) ∈ pairs.foldl (momentumStep db lo mid hi m) d0 := by
  have hpres : ∀ (pairs : List (String × Option String))
      (d0 : List (String × MomentumEntry)) (k : String),
      (∃ w, (k, w) ∈ d0) →
      ∃ w, (k, w) ∈ pairs.foldl (momentumStep db lo mid hi m) d0 := by
    intro pairs
    induction pairs with
    | nil => intro d0 k h; exact h
    | cons q rest ih =>
      intro d0 k h
      simp only [List.foldl_cons]
      refine ih _ k ?_
      unfold momentumStep
      split
      · exact dictUpsert_key_preserved _ _ _ _ h
      · exact h
  intro pairs
  induction pairs with
  | nil => intro d0 pr ke hpr; cases hpr
  | cons q rest ih =>
    intro d0 pr ke hpr hke
    rcases List.mem_cons.mp hpr with h | h
    · subst h
      simp only [List.foldl_cons]
      apply hpres
      unfold momentumStep
      rw [hke]
      exact dictUpsert_key_self _ _ _
    · simp only [List.foldl_cons]
      exact ih _ pr ke h hke

/-- C3: whenever a token block appears in the momentum output with zero
mentions in the first half-window and any mentions in the second, its
mention-growth field is the explicit unbounded-growth marker
(`float("inf")` in the source), not a division error. -/
theorem momentum_zero_first_half_unbounded :
    ∀ (db : DB) (ts ns : Option (List String)) (tn d m now : Int)
      (l : List (String × MomentumEntry)),
      get_sentiment_momentum db ts ns tn d m now = .ok l →
      ∀ p ∈ l, p.2.period_1.total_mentions = 0 →
        0 < p.2.period_2.total_mentions →
        p.2.mention_growth_percentage = .unbounded := by
  intro db ts ns tn d m now l h p hp h0 hpos
  simp only [get_sentiment_momentum] at h
  split at h
  · cases h
  · split at h
    · cases h
    · split at h
      · cases h
      · split at h
        · cases h
        · cases h
          simp only [momentumCore] at hp
          rw [(List.perm_insertionSort _ _).mem_iff] at hp
          exact momentum_fold_forall db (now - 24 * d) (now - 24 * d.fdiv 2)
            now m
            (fun q => q.2.period_1.total_mentions = 0 →
              0 < q.2.period_2.total_mentions →
              q.2.mention_growth_percentage = .unbounded)
            (fun pr ke hke h0 _ =>
              (momentumEntryFor_spec db pr _ _ _ m ke hke).2.2.2.2.2 h0)
            _ [] (fun r hr => absurd hr (List.not_mem_nil r)) p hp h0 hpos

/-- C3 witness: in the spec scenario (0 mentions then 4, `days_back = 6`)
the returned entry reports unbounded growth. -/
theorem momentum_zero_first_half_unbounded_witness :
    momGrowthEntry.2.mention_growth_percentage = .unbounded := by
  apply momentum_zero_first_half_unbounded dbGrowth (some ["SOL"]) none 5 6
    1 1000 momGrowthList
  · with_unfolding_all rfl
  · exact of_decide_eq_true (by with_unfolding_all rfl)
  · with_unfolding_all rfl
  · exact of_decide_eq_true (by with_unfolding_all rfl)

/-- C4 counterexample: with `min_mentions = 5` the claim's real-number
threshold `min_mentions / 2 = 5/2` would exclude a token whose first half
holds 2 mentions, but the code compares against the floor division
`min_mentions // 2 = 2` and keeps it.  Exhibited at `min_mentions = 3`:
the sole token has first-half total 1, and `1 < 3/2` (so the claim says it
is excluded from the result), yet the result contains it. -/
theorem momentum_exclusion_counterexample :
    ((get_sentiment_momentum dbHalves (some ["SOL"]) none 5 6 3
      1000).toOption.getD []).map (fun p => p.2.period_1.total_mentions)
      = [1] ∧ ((1 : Rat) < 3 / 2) := by
  constructor
  · with_unfolding_all rfl
  · norm_num

/-- C4 amended: a token block is excluded from the momentum result exactly
when either half-window total is below the floor division
`min_mentions // 2` (not the real quotient `min_mentions / 2`); the
exclusion applies to result membership only, while candidate
auto-selection uses the full `min_mentions` over the whole window. -/
theorem momentum_exclusion_floor_div :
    (∀ (db : DB) (ts ns : Option (List String)) (tn d m now : Int)
      (l : List (String × MomentumEntry)),
      get_sentiment_momentum db ts ns tn d m now = .ok l →
      (∀ p ∈ l, m.fdiv 2 ≤ (p.2.period_1.total_mentions : Int) ∧
        m.fdiv 2 ≤ (p.2.period_2.total_mentions : Int)) ∧
      (∀ pr ∈ momentumPairs db (denone ts) (denone ns)
          (momentumUseSpecific (denone ts) (denone ns))
          (now - 24 * d) now m tn,
        (momentumTokenIds db pr).isEmpty = false →
        m.fdiv 2 ≤ (periodTotal db (momentumTokenIds db pr)
          (now - 24 * d) (now - 24 * d.fdiv 2) : Int) →
        m.fdiv 2 ≤ (periodTotal db (momentumTokenIds db pr)
          (now - 24 * d.fdiv 2) now : Int) →
        ∃ e, (displayName pr.1 pr.2, e) ∈ l)) ∧
    (∀ (db : DB) (ns : Option (List String)) (lo hi m tn : Int)
      (pr : String × Option String),
      pr ∈ momentumPairs db none ns false lo hi m tn →
      m ≤ (pairMentionCount db ns lo hi pr : Int)) := by
  constructor
  · intro db ts ns tn d m now l h
    simp only [get_sentiment_momentum] at h
    split at h
    · cases h
    · split at h
      · cases h
      · split at h
        · cases h
        · split at h
          · cases h
          · cases h
            constructor
            · intro p hp
              simp only [momentumCore] at hp
              rw [(List.perm_insertionSort _ _).mem_iff] at hp
              exact momentum_fold_forall db (now - 24 * d)
                (now - 24 * d.fdiv 2) now m
                (fun q => m.fdiv 2 ≤ (q.2.period_1.total_mentions : Int) ∧
                  m.fdiv 2 ≤ (q.2.period_2.total_mentions : Int))
                (fun pr ke hke =>
                  ⟨(momentumEntryFor_spec db pr _ _ _ m ke hke).2.2.2.1,
                   (momentumEntryFor_spec db pr _ _ _ m ke hke).2.2.2.2.1⟩)
                _ [] (fun r hr => absurd hr (List.not_mem_nil r)) p hp
            · intro pr hpr hids h1 h2
              obtain ⟨e, he⟩ := momentumEntryFor_some db pr (now - 24 * d)
                (now - 24 * d.fdiv 2) now m hids h1 h2
              obtain ⟨w, hw⟩ := momentum_fold_key_mem db (now - 24 * d)
                (now - 24 * d.fdiv 2) now m _ []
                pr (displayName pr.1 pr.2, e) hpr he
              refine ⟨w, ?_⟩
              simp only [momentumCore]
              rw [(List.perm_insertionSort _ _).mem_iff]
              exact hw
  · intro db ns lo hi m tn pr hpr
    simp only [momentumPairs, List.mem_map] at hpr
    obtain ⟨q, hq, hqpr⟩ := hpr
    have hq2 := List.mem_of_mem_take hq
    rw [(List.perm_insertionSort _ _).mem_iff] at hq2
    simp only [List.mem_filterMap] at hq2
    obtain ⟨k, _, hk⟩ := hq2
    by_cases hc : m ≤ ((pairMentionCount db ns lo hi k : Nat) : Int)
    · rw [if_pos hc] at hk
      cases hk
      exact hqpr ▸ hc
    · rw [if_neg hc] at hk
      cases hk

/-- C4 amended witness: on `dbHalves` with `min_mentions = 3` the sole
returned block has half totals `(1, 2)`, both at least `3 // 2 = 1`; and
the auto-selection bound applies to its candidate pair. -/
theorem momentum_exclusion_floor_div_witness :
    ((3 : Int).fdiv 2 ≤ (momHalvesEntry.2.period_1.total_mentions : Int) ∧
      (3 : Int).fdiv 2 ≤ (momHalvesEntry.2.period_2.total_mentions : Int)) ∧
    (3 : Int) ≤ (pairMentionCount dbHalves none (1000 - 24 * 6) 1000
      ("SOL", none) : Int) := by
  constructor
  · exact (momentum_exclusion_floor_div.1 dbHalves (some ["SOL"]) none 5 6 3
      1000 momHalvesList (by with_unfolding_all rfl)).1 momHalvesEntry
      (of_decide_eq_true (by with_unfolding_all rfl))
  · exact momentum_exclusion_floor_div.2 dbHalves none (1000 - 24 * 6) 1000
      3 5 ("SOL", none) (of_decide_eq_true (by with_unfolding_all rfl))

/-! ### Correlation lemmas (C7) -/

theorem find?_id_of_nodup (l : List TokenMention)
    (hnd : (l.map (fun tm => tm.id)).Nodup) :
    ∀ tm ∈ l, l.find? (fun x => decide (x.id = tm.id)) = some tm := by
  induction l with
  | nil => intro tm h; cases h
  | cons a rest ih =>
    intro tm htm
    simp only [List.map_cons, List.nodup_cons, List.mem_map] at hnd
    rcases List.mem_cons.mp htm with h | h
    · subst h
      simp [List.find?]
    · have hne : ¬ (a.id = tm.id) := by
        intro heq
        exact hnd.1 ⟨tm, h, heq.symm⟩
      simp only [List.find?]
      rw [decide_eq_false hne]
      exact ih hnd.2 tm h

theorem primaryTokenTweets_sub (db : DB) (primaryId : Nat) (lo hi : Int) :
    ∀ t ∈ primaryTokenTweets db primaryId lo hi,
      ∃ tm ∈ primaryMentionRows db primaryId lo hi, tm.tweet_id = t := by
  intro t ht
  simp only [primaryTokenTweets, List.mem_flatMap, List.mem_map,
    List.mem_filter] at ht
  obtain ⟨tw, ⟨htw, hwin⟩, tm, htm, hid⟩ := ht
  simp only [List.mem_filter, Bool.and_eq_true, decide_eq_true_eq] at htm
  refine ⟨tm, ?_, by rw [htm.2.1, hid]⟩
  simp only [primaryMentionRows, List.mem_filter, Bool.and_eq_true,
    decide_eq_true_eq, List.any_eq_true]
  exact ⟨htm.1, htm.2.2, tw, htw, by simp [htm.2.1, hwin]⟩

theorem dedup_length_le_mention_ids (db : DB) (primaryId : Nat)
    (lo hi : Int)
    (hnd : (db.mentions.map (fun tm => tm.id)).Nodup) :
    (primaryTokenTweets db primaryId lo hi).dedup.length
      ≤ primaryMentionsCount db primaryId lo hi := by
  classical
  set ptt := primaryTokenTweets db primaryId lo hi with hptt
  set M := primaryMentionRows db primaryId lo hi with hM
  have hMsub : ∀ tm ∈ M, tm ∈ db.mentions := by
    intro tm htm
    exact List.mem_of_mem_filter htm
  have hcard : ptt.dedup.toFinset.card ≤ (M.map (fun tm => tm.id)).dedup.toFinset.card := by
    apply Finset.card_le_card_of_surjOn
      (fun i => match db.mentions.find? (fun x => decide (x.id = i)) with
        | some tm => tm.tweet_id
        | none => 0)
    intro t ht
    simp only [Finset.coe_sort_coe, List.coe_toFinset, Set.mem_setOf_eq,
      List.mem_dedup] at ht
    obtain ⟨tm, htmM, htmt⟩ := primaryTokenTweets_sub db primaryId lo hi t ht
    refine (Set.mem_image _ _ _).mpr ⟨tm.id, ?_, ?_⟩
    · simp only [List.coe_toFinset, Set.mem_setOf_eq, List.mem_dedup,
        List.mem_map]
      exact ⟨tm, htmM, rfl⟩
    · rw [find?_id_of_nodup db.mentions hnd tm (hMsub tm htmM)]
      exact htmt
  rw [List.toFinset_card_of_nodup (List.nodup_dedup _),
    List.toFinset_card_of_nodup (List.nodup_dedup _)] at hcard
  unfold primaryMentionsCount
  exact hcard

theorem coMention_le_primary (db : DB) (primaryId tokId : Nat) (lo hi : Int)
    (hnd : (db.mentions.map (fun tm => tm.id)).Nodup) :
    (coMentionTweetIds db tokId
      (primaryTokenTweets db primaryId lo hi)).length
      ≤ primaryMentionsCount db primaryId lo hi := by
  have hsub : coMentionTweetIds db tokId (primaryTokenTweets db primaryId
      lo hi) ⊆ (primaryTokenTweets db primaryId lo hi).dedup := by
    intro t ht
    simp only [coMentionTweetIds, List.mem_dedup, List.mem_map,
      List.mem_filter, Bool.and_eq_true, decide_eq_true_eq] at ht
    obtain ⟨tm, ⟨_, _, hin⟩, hid⟩ := ht
    rw [List.mem_dedup]
    exact hid ▸ hin
  calc (coMentionTweetIds db tokId
        (primaryTokenTweets db primaryId lo hi)).length
      ≤ (primaryTokenTweets db primaryId lo hi).dedup.length :=
        ((List.nodup_dedup _).subperm hsub).length_le
    _ ≤ primaryMentionsCount db primaryId lo hi :=
        dedup_length_le_mention_ids db primaryId lo hi hnd

/-- C7 counterexample: the claim's exact equality
`percentage = co / primary × 100` fails, because the source rounds to two
decimals.  On `dbCorr` the sole correlated token has one co-mention out of
three primary mentions, and the code reports `33.33`, not `100/3`. -/
theorem correlation_percentage_counterexample :
    ((analyze_token_correlation dbCorr "SOL" none 30 1 10
      1000).toOption.map (fun r =>
        (r.primary_total_mentions,
         r.correlated_tokens.map (fun e =>
           (e.co_mention_count, e.correlation_percentage))))).getD (0, [])
      = (3, [(1, 3333/100)]) ∧
    (3333/100 : Rat) ≠ (1 : Rat) / 3 * 100 := by
  constructor
  · with_unfolding_all rfl
  · norm_num

/-- C7 amended: every correlated-token entry reports
`round(co_mention_count / primary_total_mentions × 100, 2)` (the claimed
formula up to the source's two-decimal rounding), the percentage lies in
`[0, 100]`, and — given primary-key uniqueness of the mention ids — the
co-mention count never exceeds the primary token's total windowed
mentions. -/
theorem correlation_percentage_rounded :
    ∀ (db : DB) (sym : String) (bn : Option String) (d mc lim now : Int)
      (res : CorrelationResult),
      (db.mentions.map (fun tm => tm.id)).Nodup →
      analyze_token_correlation db sym bn d mc lim now = .ok res →
      ∀ e ∈ res.correlated_tokens,
        e.correlation_percentage =
          (if 0 < res.primary_total_mentions then
            pyround ((e.co_mention_count : Rat)
              / (res.primary_total_mentions : Rat) * 100) 2
          else 0) ∧
        e.co_mention_count ≤ res.primary_total_mentions ∧
        (0 : Rat) ≤ e.correlation_percentage ∧
        e.correlation_percentage ≤ 100 := by
  intro db sym bn d mc lim now res hnd h e he
  simp only [analyze_token_correlation] at h
  split at h
  · cases h
  · split at h
    · cases h
    · split at h
      · cases h
      · split at h
        · cases h
        · rename_i primary hfind
          cases h
          simp only [List.mem_map] at he
          obtain ⟨⟨tok, c⟩, hmem, rfl⟩ := he
          have hco : c = (coMentionTweetIds db tok.id
              (primaryTokenTweets db primary.id (now - 24 * d)
                now)).length := by
            have h2 := List.mem_of_mem_take hmem
            rw [(List.perm_insertionSort _ _).mem_iff] at h2
            simp only [List.mem_filterMap] at h2
            obtain ⟨tok2, _, hk⟩ := h2
            split at hk
            · cases hk
            · split at hk
              · rename_i hcm
                cases hk
                rfl
              · cases hk
          have hle : c ≤ primaryMentionsCount db primary.id
              (now - 24 * d) now := by
            rw [hco]
            exact coMention_le_primary db primary.id tok.id _ _ hnd
          refine ⟨rfl, hle, ?_⟩
          by_cases hpos : 0 < primaryMentionsCount db primary.id
            (now - 24 * d) now
          · simp only [if_pos hpos]
            have hx0 : ((0 : Int) : Rat) ≤ (c : Rat)
                / (primaryMentionsCount db primary.id (now - 24 * d) now
                  : Rat) * 100 := by
              push_cast
              positivity
            have hx1 : (c : Rat)
                / (primaryMentionsCount db primary.id (now - 24 * d) now
                  : Rat) * 100 ≤ ((100 : Int) : Rat) := by
              push_cast
              have hp : (0 : Rat) < (primaryMentionsCount db primary.id
                  (now - 24 * d) now : Rat) := by exact_mod_cast hpos
              have : (c : Rat) / (primaryMentionsCount db primary.id
                  (now - 24 * d) now : Rat) ≤ 1 := by
                rw [div_le_one hp]
                exact_mod_cast hle
              nlinarith
            have := pyround_mem_Icc 2 hx0 hx1
            constructor
            · simpa using this.1
            · simpa using this.2
          · simp only [if_neg hpos]
            norm_num

/-- C7 amended witness: on `dbCorr` the RAY entry satisfies the rounded
formula and the bounds. -/
theorem correlation_percentage_rounded_witness :
    corrEntry.correlation_percentage =
      (if 0 < corrRes.primary_total_mentions then
        pyround ((corrEntry.co_mention_count : Rat)
          / (corrRes.primary_total_mentions : Rat) * 100) 2
      else 0) ∧
    corrEntry.co_mention_count ≤ corrRes.primary_total_mentions ∧
    (0 : Rat) ≤ corrEntry.correlation_percentage ∧
    corrEntry.correlation_percentage ≤ 100 := by
  apply correlation_percentage_rounded dbCorr "SOL" none 30 1 10 1000
    corrRes (by decide) (by with_unfolding_all rfl)
  exact List.mem_singleton_self _

/-! ### All-or-nothing comparator validation (C8)

In the `Except` embedding an error value is the whole output, so "fails
before any statistics are computed, with no partial output" is the
statement that the call returns `.error (.notFound _)`. -/

/-- C8: each comparator validates every named entity up front.  If any
supplied symbol (under the applicable network rule), any supplied id, any
(symbol, network) pair of the one-network-per-token mode, or any network
name of the network comparison fails to resolve, the call returns a
`NotFound` error and produces no output. -/
theorem comparator_all_or_nothing :
    (∀ (db : DB) (ts : Option (List String)) (tids : Option (List Nat))
      (nets : Option (List String)) (d now : Int) (ss : List String),
      denone ts = some ss →
      (∀ is_, denone tids = some is_ → ss.length = is_.length) →
      useSpecificNetworks (denone ts) (denone tids) (denone nets) = false →
      (∃ s ∈ ss, symbolResolves db (denone nets) s = false) →
      ∃ m, compare_token_sentiments db ts tids nets d now
        = .error (.notFound m)) ∧
    (∀ (db : DB) (ts : Option (List String)) (tids : Option (List Nat))
      (nets : Option (List String)) (d now : Int) (ss : List String),
      denone ts = some ss →
      (∀ is_, denone tids = some is_ → ss.length = is_.length) →
      useSpecificNetworks (denone ts) (denone tids) (denone nets) = true →
      (∃ pr ∈ ss.zip ((denone nets).getD []), pairResolves db pr = false) →
      ∃ m, compare_token_sentiments db ts tids nets d now
        = .error (.notFound m)) ∧
    (∀ (db : DB) (ts : Option (List String)) (tids : Option (List Nat))
      (nets : Option (List String)) (d now : Int) (is_ : List Nat),
      denone ts = none → denone tids = some is_ →
      (∃ i ∈ is_, idResolves db
        (if useSpecificNetworks (denone ts) (denone tids) (denone nets)
         then none else denone nets) i = false) →
      ∃ m, compare_token_sentiments db ts tids nets d now
        = .error (.notFound m)) ∧
    (∀ (db : DB) (names : List String) (d mt mm now : Int),
      names.isEmpty = false → 0 < d →
      (∃ nm ∈ names, (db.networks.any (fun w => decide (w.name = nm)))
        = false) →
      ∃ m, compare_blockchain_networks_sentiment db names d mt mm now
        = .error (.notFound m)) := by
  refine ⟨?_, ?_, ?_, ?_⟩
  · intro db ts tids nets d now ss hss hlen hspec ⟨s, hs, hsf⟩
    rw [hss] at hspec
    simp only [compare_token_sentiments, hss]
    rw [if_neg (by simp)]
    rw [if_neg (by
      cases his : denone tids with
      | none => simp
      | some is_ => simp [hlen is_ his])]
    rw [hspec]
    simp only [Bool.false_eq_true, if_false]
    rw [if_pos (List.any_eq_true.mpr ⟨s, hs, by simp [hsf]⟩)]
    exact ⟨_, rfl⟩
  · intro db ts tids nets d now ss hss hlen hspec ⟨pr, hpr, hprf⟩
    rw [hss] at hspec
    simp only [compare_token_sentiments, hss]
    rw [if_neg (by simp)]
    rw [if_neg (by
      cases his : denone tids with
      | none => simp
      | some is_ => simp [hlen is_ his])]
    rw [hspec]
    simp only [if_true]
    have hfind : ((ss.zip ((denone nets).getD [])).find?
        (fun pr => !pairResolves db pr)).isSome := by
      rw [List.find?_isSome]
      exact ⟨pr, hpr, by simp [hprf]⟩
    cases hf : (ss.zip ((denone nets).getD [])).find?
        (fun pr => !pairResolves db pr) with
    | none => rw [hf] at hfind; cases hfind
    | some pr2 => exact ⟨_, rfl⟩
  · intro db ts tids nets d now is_ hss his ⟨i, hi, hif⟩
    rw [hss, his] at hif
    simp only [compare_token_sentiments, hss, his]
    rw [if_neg (by simp), if_neg (by simp)]
    rw [if_pos (List.any_eq_true.mpr ⟨i, hi, by simp [hif]⟩)]
    exact ⟨_, rfl⟩
  · intro db names d mt mm now hne hd ⟨nm, hnm, hnmf⟩
    simp only [compare_blockchain_networks_sentiment]
    rw [if_neg (by simp [hne]), if_neg (by omega),
      if_pos (List.any_eq_true.mpr ⟨nm, hnm, by simp [hnmf]⟩)]
    exact ⟨_, rfl⟩

/-- C8 witness: on `dbMain` the symbol NOPE, the pair (SOL, ethereum), the
id 99 and the network name nope each fail to resolve and each call returns
`NotFound`. -/
theorem comparator_all_or_nothing_witness :
    (∃ m, compare_token_sentiments dbMain (some ["SOL", "NOPE"]) none none
      7 1000 = .error (.notFound m)) ∧
    (∃ m, compare_token_sentiments dbMain (some ["SOL"]) none
      (some ["ethereum"]) 7 1000 = .error (.notFound m)) ∧
    (∃ m, compare_token_sentiments dbMain none (some [1, 99]) none 7 1000
      = .error (.notFound m)) ∧
    (∃ m, compare_blockchain_networks_sentiment dbMain ["nope"] 30 5 3 1000
      = .error (.notFound m)) := by
  refine ⟨?_, ?_, ?_, ?_⟩
  · exact comparator_all_or_nothing.1 dbMain (some ["SOL", "NOPE"]) none
      none 7 1000 ["SOL", "NOPE"] rfl (by intro is_ h; cases h) rfl
      ⟨"NOPE", by decide, by with_unfolding_all rfl⟩
  · exact comparator_all_or_nothing.2.1 dbMain (some ["SOL"]) none
      (some ["ethereum"]) 7 1000 ["SOL"] rfl (by intro is_ h; cases h) rfl
      ⟨("SOL", "ethereum"), by decide, by with_unfolding_all rfl⟩
  · exact comparator_all_or_nothing.2.2.1 dbMain none (some [1, 99]) none
      7 1000 [1, 99] rfl rfl
      ⟨99, by decide, by with_unfolding_all rfl⟩
  · exact comparator_all_or_nothing.2.2.2 dbMain ["nope"] 30 5 3 1000
      rfl (by omega) ⟨"nope", by decide, by with_unfolding_all rfl⟩

/-! ### Sentiment-score lemmas (C5) -/

theorem pyround_zero (n : Nat) : pyround 0 n = 0 := by
  unfold pyround roundHalfEven
  norm_num

theorem pyround_ite (c : Prop) [Decidable c] (x : Rat) (n : Nat) :
    pyround (if c then x else 0) n = if c then pyround x n else 0 := by
  split
  · rfl
  · exact pyround_zero n

theorem pyround_close (x : Rat) (nd : Nat) (hnd : 2 ≤ nd) :
    |pyround x nd - x| ≤ 1/200 := by
  have h := abs_pyround_sub x nd
  have hpow : (100 : Rat) ≤ (10 : Rat) ^ nd := by
    calc (100 : Rat) = (10 : Rat) ^ 2 := by norm_num
      _ ≤ (10 : Rat) ^ nd := by
          apply pow_le_pow_right₀ (by norm_num) hnd
  have : 1 / (2 * (10 : Rat) ^ nd) ≤ 1/200 := by
    rw [div_le_div_iff₀ (by positivity) (by norm_num)]
    nlinarith
  linarith

/-- Specification of the direct sentiment-score formula
`round((p - n) / t, nd)` guarded by `t > 0`, for reported counts with
`p + n ≤ t`: zero on an empty total, bounded by `[-1, 1]`, and within
rounding distance of the exact ratio. -/
theorem score_formula_spec (p n t : Nat) (hpn : p + n ≤ t) (nd : Nat)
    (hnd : 2 ≤ nd) :
    (t = 0 → (if 0 < t then pyround (((p : Rat) - n) / t) nd else 0) = 0) ∧
    (-1 : Rat) ≤ (if 0 < t then pyround (((p : Rat) - n) / t) nd else 0) ∧
    (if 0 < t then pyround (((p : Rat) - n) / t) nd else 0) ≤ 1 ∧
    (0 < t → |(if 0 < t then pyround (((p : Rat) - n) / t) nd else 0)
      - ((p : Rat) - n) / t| ≤ 1/100) := by
  by_cases ht : 0 < t
  · have htq : (0 : Rat) < (t : Rat) := by exact_mod_cast ht
    have hpq : (p : Rat) ≤ (t : Rat) :=
      by exact_mod_cast (le_trans (Nat.le_add_right p n) hpn)
    have hnq : (n : Rat) ≤ (t : Rat) :=
      by exact_mod_cast (le_trans (Nat.le_add_left n p) hpn)
    have hlo : ((-1 : Int) : Rat) ≤ ((p : Rat) - n) / t := by
      rw [le_div_iff₀ htq]
      push_cast
      nlinarith [Nat.cast_nonneg (α := Rat) p]
    have hhi : ((p : Rat) - n) / t ≤ ((1 : Int) : Rat) := by
      rw [div_le_iff₀ htq]
      push_cast
      nlinarith [Nat.cast_nonneg (α := Rat) n]
    have hb := pyround_mem_Icc nd hlo hhi
    refine ⟨fun h0 => absurd h0 (by omega), ?_, ?_, ?_⟩
    · rw [if_pos ht]; simpa using hb.1
    · rw [if_pos ht]; simpa using hb.2
    · intro _
      rw [if_pos ht]
      exact le_trans (pyround_close _ nd hnd) (by norm_num)
  · refine ⟨fun _ => if_neg ht, ?_, ?_, fun h0 => absurd h0 ht⟩
    · rw [if_neg ht]; norm_num
    · rw [if_neg ht]; norm_num

/-- Specification of the percentage-difference score of
`get_most_discussed_tokens`: `round((p_pct - n_pct) / 100, 2)` built from
the two rounded percentages. -/
theorem score_pct_spec (p n t : Nat) (hpn : p + n ≤ t) :
    (t = 0 → pyround
      (((if 0 < t then pyround ((p : Rat) / t * 100) 2 else 0)
        - (if 0 < t then pyround ((n : Rat) / t * 100) 2 else 0)) / 100) 2
      = 0) ∧
    (-1 : Rat) ≤ pyround
      (((if 0 < t then pyround ((p : Rat) / t * 100) 2 else 0)
        - (if 0 < t then pyround ((n : Rat) / t * 100) 2 else 0)) / 100) 2 ∧
    pyround
      (((if 0 < t then pyround ((p : Rat) / t * 100) 2 else 0)
        - (if 0 < t then pyround ((n : Rat) / t * 100) 2 else 0)) / 100) 2
      ≤ 1 ∧
    (0 < t → |pyround
      (((if 0 < t then pyround ((p : Rat) / t * 100) 2 else 0)
        - (if 0 < t then pyround ((n : Rat) / t * 100) 2 else 0)) / 100) 2
      - ((p : Rat) - n) / t| ≤ 1/100) := by
  by_cases ht : 0 < t
  · have htq : (0 : Rat) < (t : Rat) := by exact_mod_cast ht
    have hpq : (p : Rat) ≤ (t : Rat) :=
      by exact_mod_cast (le_trans (Nat.le_add_right p n) hpn)
    have hnq : (n : Rat) ≤ (t : Rat) :=
      by exact_mod_cast (le_trans (Nat.le_add_left n p) hpn)
    have hp0 : ((0 : Int) : Rat) ≤ (p : Rat) / t * 100 := by
      push_cast; positivity
    have hp1 : (p : Rat) / t * 100 ≤ ((100 : Int) : Rat) := by
      push_cast
      have : (p : Rat) / t ≤ 1 := by rw [div_le_one htq]; exact hpq
      nlinarith
    have hn0 : ((0 : Int) : Rat) ≤ (n : Rat) / t * 100 := by
      push_cast; positivity
    have hn1 : (n : Rat) / t * 100 ≤ ((100 : Int) : Rat) := by
      push_cast
      have : (n : Rat) / t ≤ 1 := by rw [div_le_one htq]; exact hnq
      nlinarith
    have hpb := pyround_mem_Icc 2 hp0 hp1
    have hnb := pyround_mem_Icc 2 hn0 hn1
    rw [if_pos ht, if_pos ht]
    set pp := pyround ((p : Rat) / t * 100) 2 with hpp
    set np := pyround ((n : Rat) / t * 100) 2 with hnp
    have hdlo : ((-1 : Int) : Rat) ≤ (pp - np) / 100 := by
      rw [le_div_iff₀ (by norm_num : (0:Rat) < 100)]
      push_cast at hpb hnb ⊢
      linarith
    have hdhi : (pp - np) / 100 ≤ ((1 : Int) : Rat) := by
      rw [div_le_iff₀ (by norm_num : (0:Rat) < 100)]
      push_cast at hpb hnb ⊢
      linarith
    have hb := pyround_mem_Icc 2 hdlo hdhi
    refine ⟨fun h0 => absurd h0 (by omega), by simpa using hb.1,
      by simpa using hb.2, ?_⟩
    intro _
    have h1 : |pyround ((pp - np) / 100) 2 - (pp - np) / 100| ≤ 1/200 :=
      pyround_close _ 2 (le_refl 2)
    have h2 : |pp - (p : Rat) / t * 100| ≤ 1/200 :=
      pyround_close _ 2 (le_refl 2)
    have h3 : |np - (n : Rat) / t * 100| ≤ 1/200 :=
      pyround_close _ 2 (le_refl 2)
    have hexact : ((p : Rat) - n) / t
        = ((p : Rat) / t * 100 - (n : Rat) / t * 100) / 100 := by
      field_simp
      ring
    rw [hexact]
    have h2a := abs_le.mp h2
    have h3a := abs_le.mp h3
    have heqd : (pp - np) / 100
        - ((p : Rat) / t * 100 - (n : Rat) / t * 100) / 100
        = ((pp - (p : Rat) / t * 100) - (np - (n : Rat) / t * 100)) / 100 := by
      ring
    have h4 : |(pp - np) / 100
        - ((p : Rat) / t * 100 - (n : Rat) / t * 100) / 100| ≤ 1/10000 := by
      rw [heqd, abs_le]
      constructor
      · linarith
      · linarith
    calc |pyround ((pp - np) / 100) 2
          - ((p : Rat) / t * 100 - (n : Rat) / t * 100) / 100|
        ≤ |pyround ((pp - np) / 100) 2 - (pp - np) / 100|
          + |(pp - np) / 100
            - ((p : Rat) / t * 100 - (n : Rat) / t * 100) / 100| :=
          abs_sub_le _ _ _
      _ ≤ 1/200 + 1/10000 := add_le_add h1 h4
      _ ≤ 1/100 := by norm_num
  · have ht0 : t = 0 := by omega
    rw [if_neg ht, if_neg ht]
    simp only [sub_zero, zero_div, pyround_zero]
    exact ⟨fun _ => trivial, by norm_num, by norm_num, fun h0 => absurd h0 ht⟩

theorem getSent_setAssoc (l : List (Sentiment × Nat × Rat)) (s : Sentiment)
    (v : Nat × Rat) (s' : Sentiment) :
    getSent (setAssoc l s v) s' = if s' = s then v else getSent l s' := by
  induction l with
  | nil =>
    by_cases h : s' = s <;> simp [setAssoc, getSent, h]
    · intro h2; exact absurd h2.symm h
  | cons p rest ih =>
    by_cases hp : p.1 = s
    · by_cases h : s' = s
      · simp [setAssoc, getSent, hp, h]
      · simp only [setAssoc, if_pos hp, getSent]
        rw [if_neg (fun h2 => h h2.symm), if_neg h, if_neg (by
          intro h2
          exact h (by rw [← h2, hp]))]
    · simp only [setAssoc, if_neg hp, getSent]
      by_cases hq : p.1 = s'
      · rw [if_pos hq, if_neg (by intro h2; exact hp (by rw [hq, h2])),
          if_pos hq]
      · rw [if_neg hq, if_neg hq, ih]

theorem accumStep_inv (a : TokenAccum) (s : Sentiment) (c : Nat)
    (conf : Rat) (h : accumInv a) :
    accumInv { a with total := a.total + c,
                      sentiments := setAssoc a.sentiments s (c, conf) } := by
  obtain ⟨h1, h2, h3, h4⟩ := h
  unfold accumInv
  simp only [getSent_setAssoc]
  cases s <;> simp <;> omega

theorem accumInv_empty (sym : String) (net : Option String) :
    accumInv ⟨sym, net, 0, []⟩ := by
  unfold accumInv getSent
  simp

theorem accumulateTokenMentions_inv (grows : List CompareGroupRow) :
    ∀ p ∈ accumulateTokenMentions grows, accumInv p.2 := by
  unfold accumulateTokenMentions
  suffices hgen : ∀ (gs : List CompareGroupRow)
      (d0 : List (String × TokenAccum)), (∀ p ∈ d0, accumInv p.2) →
      ∀ p ∈ gs.foldl (fun d g =>
        dictUpsert d (underscoreKey g.symbol g.blockchain_network)
          (fun cur =>
            let a := cur.getD ⟨g.symbol, g.blockchain_network, 0, []⟩
            { a with total := a.total + g.count,
                     sentiments := setAssoc a.sentiments g.sentiment
                       (g.count, pyround g.avg_confidence 2) })) d0,
        accumInv p.2 by
    exact hgen grows [] (fun p hp => absurd hp (List.not_mem_nil p))
  intro gs
  induction gs with
  | nil => intro d0 hd0 p hp; exact hd0 p hp
  | cons g rest ih =>
    intro d0 hd0 p hp
    simp only [List.foldl_cons] at hp
    refine ih _ ?_ p hp
    apply dictUpsert_forall
    · exact hd0
    · exact accumStep_inv _ g.sentiment g.count _
        (accumInv_empty g.symbol g.blockchain_network)
    · intro b hb
      exact accumStep_inv b g.sentiment g.count _ hb

theorem fold_dictInsertKV_forall {α : Type} (P : String × α → Prop) :
    ∀ (xs : List (String × α)) (d0 : List (String × α)),
      (∀ p ∈ d0, P p) → (∀ p ∈ xs, P p) →
      ∀ p ∈ xs.foldl (fun d q => dictInsertKV d q.1 q.2) d0, P p := by
  intro xs
  induction xs with
  | nil => intro d0 hd0 _ p hp; exact hd0 p hp
  | cons q rest ih =>
    intro d0 hd0 hxs p hp
    simp only [List.foldl_cons] at hp
    refine ih _ ?_ (fun r hr => hxs r (List.mem_cons_of_mem _ hr)) p hp
    intro r hr
    rcases mem_dictInsertKV _ _ _ r hr with h | h
    · exact hd0 r h
    · rw [h]
      have := hxs q (List.mem_cons_self _ _)
      cases q
      exact this

theorem finalizeCompared_spec (a : TokenAccum) (hinv : accumInv a) :
    scoreSpec (finalizeCompared a).2.sentiment_score
      (finalizeCompared a).2.positive.count
      (finalizeCompared a).2.negative.count
      (finalizeCompared a).2.total_mentions := by
  have h := score_formula_spec (getSent a.sentiments .positive).1
    (getSent a.sentiments .negative).1 a.total hinv.2.2.2 2 (le_refl 2)
  exact ⟨h.1, h.2.1, h.2.2.1, h.2.2.2⟩

theorem discussedEntry_spec (db : DB) (lo hi : Int) (tok : BlockchainToken)
    (c : Nat) :
    scoreSpec (discussedEntry db lo hi tok c).sentiment_score
      (cellCount (discussedEntry db lo hi tok c).sentiment_breakdown
        .positive)
      (cellCount (discussedEntry db lo hi tok c).sentiment_breakdown
        .negative)
      (cellCount (discussedEntry db lo hi tok c).sentiment_breakdown
        .positive
        + cellCount (discussedEntry db lo hi tok c).sentiment_breakdown
          .negative
        + cellCount (discussedEntry db lo hi tok c).sentiment_breakdown
          .neutral) := by
  have hc : ∀ s, cellCount
      (discussedEntry db lo hi tok c).sentiment_breakdown s
      = sentCountFor db [tok.id] lo hi s := by
    intro s
    cases s <;> rfl
  rw [hc, hc, hc]
  have h := score_pct_spec (sentCountFor db [tok.id] lo hi .positive)
    (sentCountFor db [tok.id] lo hi .negative)
    (sentCountFor db [tok.id] lo hi .positive
      + sentCountFor db [tok.id] lo hi .negative
      + sentCountFor db [tok.id] lo hi .neutral)
    (by omega)
  exact ⟨h.1, h.2.1, h.2.2.1, h.2.2.2⟩

theorem mkPeriodStats_spec (db : DB) (ids : List Nat) (lo hi : Int) :
    scoreSpec (mkPeriodStats db ids lo hi).sentiment_score
      (cellCount (mkPeriodStats db ids lo hi).breakdown .positive)
      (cellCount (mkPeriodStats db ids lo hi).breakdown .negative)
      (mkPeriodStats db ids lo hi).total_mentions := by
  have hc : ∀ s, cellCount (mkPeriodStats db ids lo hi).breakdown s
      = sentCountFor db ids lo hi s := by
    intro s
    cases s <;> rfl
  rw [hc, hc]
  have hsc : (mkPeriodStats db ids lo hi).sentiment_score
      = if 0 < periodTotal db ids lo hi then
          pyround (((sentCountFor db ids lo hi .positive : Rat)
            - (sentCountFor db ids lo hi .negative : Rat))
            / (periodTotal db ids lo hi : Rat)) 3
        else 0 := by
    show pyround (if 0 < periodTotal db ids lo hi then _ else 0) 3 = _
    rw [pyround_ite]
  rw [show (mkPeriodStats db ids lo hi).total_mentions
    = periodTotal db ids lo hi from rfl, hsc]
  have h := score_formula_spec (sentCountFor db ids lo hi .positive)
    (sentCountFor db ids lo hi .negative) (periodTotal db ids lo hi)
    (by unfold periodTotal; omega) 3 (by omega)
  exact ⟨h.1, h.2.1, h.2.2.1, h.2.2.2⟩

/-- The score property for a score built directly from three category
counts with total `p + n + u`. -/
theorem scoreSpec_formula (p n u : Nat) (nd : Nat) (hnd : 2 ≤ nd) :
    scoreSpec (if 0 < p + n + u then
      pyround (((p : Rat) - n) / ((p + n + u : Nat) : Rat)) nd else 0)
      p n (p + n + u) := by
  have h := score_formula_spec p n (p + n + u) (by omega) nd hnd
  exact ⟨h.1, h.2.1, h.2.2.1, h.2.2.2⟩

theorem networkEntryFor_spec (db : DB) (lo hi : Int) (mt mm : Int)
    (nm : String) (p : String × NetworkEntry)
    (h : networkEntryFor db lo hi mt mm nm = some p) :
    scoreSpec p.2.sentiment_score p.2.positive.count p.2.negative.count
      p.2.total_mentions := by
  simp only [networkEntryFor] at h
  split at h
  · cases h
  · cases h
    exact scoreSpec_formula _ _ _ 2 (le_refl 2)

theorem momentumEntryFor_periods (db : DB) (pr : String × Option String)
    (lo mid hi m : Int) (ke : String × MomentumEntry)
    (h : momentumEntryFor db pr lo mid hi m = some ke) :
    ke.2.period_1 = mkPeriodStats db (momentumTokenIds db pr) lo mid ∧
    ke.2.period_2 = mkPeriodStats db (momentumTokenIds db pr) mid hi := by
  simp only [momentumEntryFor] at h
  split at h
  · cases h
  · split at h
    · cases h
    · cases h
      exact ⟨rfl, rfl⟩

/-- C5: every score-carrying aggregation result — the comparator's token
blocks, the most-discussed entries, both momentum half-windows, and the
network-comparison blocks — reports a sentiment score that is zero when
its total is zero, lies in `[-1, 1]`, and is within the stated rounding
(at most `1/100`) of `(positive_count - negative_count) / total_count`
over its reported counts. -/
theorem sentiment_score_spec :
    (∀ (db : DB) (ts : Option (List String)) (tids : Option (List Nat))
      (nets : Option (List String)) (d now : Int)
      (out : List (String × ComparedToken)),
      compare_token_sentiments db ts tids nets d now = .ok out →
      ∀ p ∈ out, scoreSpec p.2.sentiment_score p.2.positive.count
        p.2.negative.count p.2.total_mentions) ∧
    (∀ (db : DB) (d l m : Int) (bn : Option String) (now : Int)
      (out : List DiscussedToken),
      get_most_discussed_tokens db d l m bn now = .ok out →
      ∀ e ∈ out, scoreSpec e.sentiment_score
        (cellCount e.sentiment_breakdown .positive)
        (cellCount e.sentiment_breakdown .negative)
        (cellCount e.sentiment_breakdown .positive
          + cellCount e.sentiment_breakdown .negative
          + cellCount e.sentiment_breakdown .neutral)) ∧
    (∀ (db : DB) (ts ns : Option (List String)) (tn d m now : Int)
      (out : List (String × MomentumEntry)),
      get_sentiment_momentum db ts ns tn d m now = .ok out →
      ∀ p ∈ out,
        scoreSpec p.2.period_1.sentiment_score
          (cellCount p.2.period_1.breakdown .positive)
          (cellCount p.2.period_1.breakdown .negative)
          p.2.period_1.total_mentions ∧
        scoreSpec p.2.period_2.sentiment_score
          (cellCount p.2.period_2.breakdown .positive)
          (cellCount p.2.period_2.breakdown .negative)
          p.2.period_2.total_mentions) ∧
    (∀ (db : DB) (names : List String) (d mt mm now : Int)
      (out : List (String × NetworkEntry)),
      compare_blockchain_networks_sentiment db names d mt mm now = .ok out →
      ∀ p ∈ out, scoreSpec p.2.sentiment_score p.2.positive.count
        p.2.negative.count p.2.total_mentions) := by
  refine ⟨?_, ?_, ?_, ?_⟩
  · intro db ts tids nets d now out h p hp
    simp only [compare_token_sentiments] at h
    split at h
    · cases h
    · split at h
      · cases h
      · split at h
        · cases h
        · cases h
          refine fold_dictInsertKV_forall
            (fun q => scoreSpec q.2.sentiment_score q.2.positive.count
              q.2.negative.count q.2.total_mentions) _ [] ?_ ?_ p hp
          · intro r hr
            cases hr
          · intro r hr
            simp only [List.mem_map] at hr
            obtain ⟨q, hq, rfl⟩ := hr
            exact finalizeCompared_spec q.2
              (accumulateTokenMentions_inv _ q hq)
  · intro db d l m bn now out h e he
    simp only [get_most_discussed_tokens] at h
    split at h
    · cases h
    · split at h
      · cases h
      · split at h
        · cases h
        · cases h
          simp only [List.mem_map] at he
          obtain ⟨q, _, rfl⟩ := he
          exact discussedEntry_spec db (now - 24 * d) now q.1 q.2
  · intro db ts ns tn d m now out h p hp
    simp only [get_sentiment_momentum] at h
    split at h
    · cases h
    · split at h
      · cases h
      · split at h
        · cases h
        · split at h
          · cases h
          · cases h
            simp only [momentumCore] at hp
            rw [(List.perm_insertionSort _ _).mem_iff] at hp
            refine momentum_fold_forall db (now - 24 * d)
              (now - 24 * d.fdiv 2) now m
              (fun q =>
                scoreSpec q.2.period_1.sentiment_score
                  (cellCount q.2.period_1.breakdown .positive)
                  (cellCount q.2.period_1.breakdown .negative)
                  q.2.period_1.total_mentions ∧
                scoreSpec q.2.period_2.sentiment_score
                  (cellCount q.2.period_2.breakdown .positive)
                  (cellCount q.2.period_2.breakdown .negative)
                  q.2.period_2.total_mentions)
              (fun pr ke hke => ?_)
              _ [] (fun r hr => absurd hr (List.not_mem_nil r)) p hp
            obtain ⟨h1, h2⟩ := momentumEntryFor_periods db pr _ _ _ m ke hke
            rw [h1, h2]
            exact ⟨mkPeriodStats_spec db (momentumTokenIds db pr) _ _,
              mkPeriodStats_spec db (momentumTokenIds db pr) _ _⟩
  · intro db names d mt mm now out h p hp
    simp only [compare_blockchain_networks_sentiment] at h
    split at h
    · cases h
    · split at h
      · cases h
      · split at h
        · cases h
        · cases h
          rw [(List.perm_insertionSort _ _).mem_iff] at hp
          refine fold_dictInsertKV_forall
            (fun q => scoreSpec q.2.sentiment_score q.2.positive.count
              q.2.negative.count q.2.total_mentions) _ [] ?_ ?_ p hp
          · intro r hr
            cases hr
          · intro r hr
            simp only [List.mem_filterMap] at hr
            obtain ⟨nm, _, hnm⟩ := hr
            exact networkEntryFor_spec db (now - 24 * d) now mt mm nm r hnm

/-- C5 witness: the four parts of the theorem applied to concrete outputs
on `dbMain` and `dbHalves`. -/
theorem sentiment_score_spec_witness :
    scoreSpec cmpEntry.2.sentiment_score cmpEntry.2.positive.count
      cmpEntry.2.negative.count cmpEntry.2.total_mentions ∧
    scoreSpec dscEntry.sentiment_score
      (cellCount dscEntry.sentiment_breakdown .positive)
      (cellCount dscEntry.sentiment_breakdown .negative)
      (cellCount dscEntry.sentiment_breakdown .positive
        + cellCount dscEntry.sentiment_breakdown .negative
        + cellCount dscEntry.sentiment_breakdown .neutral) ∧
    scoreSpec momHalvesEntry.2.period_1.sentiment_score
      (cellCount momHalvesEntry.2.period_1.breakdown .positive)
      (cellCount momHalvesEntry.2.period_1.breakdown .negative)
      momHalvesEntry.2.period_1.total_mentions ∧
    scoreSpec netEntry.2.sentiment_score netEntry.2.positive.count
      netEntry.2.negative.count netEntry.2.total_mentions := by
  refine ⟨?_, ?_, ?_, ?_⟩
  · exact sentiment_score_spec.1 dbMain (some ["SOL"]) none none 7 1000
      cmpOut (by with_unfolding_all rfl) cmpEntry
      (List.mem_singleton_self _)
  · exact sentiment_score_spec.2.1 dbMain 7 10 1 none 1000 dscOut
      (by with_unfolding_all rfl) dscEntry
      (List.mem_singleton_self _)
  · exact (sentiment_score_spec.2.2.1 dbHalves (some ["SOL"]) none 5 6 3
      1000 momHalvesList (by with_unfolding_all rfl) momHalvesEntry
      (of_decide_eq_true (by with_unfolding_all rfl))).1
  · exact sentiment_score_spec.2.2.2 dbMain ["solana"] 30 1 3 1000 netOut
      (by with_unfolding_all rfl) netEntry
      (List.mem_singleton_self _)

/-! ### Validation of numeric bounds (C1) -/

/-- C1 counterexample: the claim as stated fails on the code.
`get_token_sentiment_stats` performs no `days_back` validation at all, so
`days_back = 0` succeeds; and `get_most_discussed_tokens` rejects
`min_mentions` only when negative, so the non-positive value `0`
succeeds. -/
theorem nonpositive_bound_accepted :
    (get_token_sentiment_stats dbMain (some "SOL") none none 0 1000).isOk
      = true ∧
    (get_most_discussed_tokens dbMain 7 10 0 none 1000).isOk = true := by
  constructor
  · with_unfolding_all rfl
  · with_unfolding_all rfl

/-- C1 amended: the numeric bounds are validated as follows.
`get_most_discussed_tokens` rejects non-positive `days_back` and `limit`
and negative `min_mentions` (zero is accepted);
`get_token_sentiment_timeline` rejects non-positive `days_back`;
`analyze_token_correlation` rejects non-positive `days_back`,
`min_co_mentions` and `limit`; `get_sentiment_momentum` rejects
non-positive `days_back` and `top_n` and negative `min_mentions`;
`compare_blockchain_networks_sentiment` rejects non-positive `days_back`;
and `get_token_sentiment_stats` performs no `days_back` validation at all —
it succeeds for every `days_back` whenever the selector resolves. -/
theorem numeric_bound_validation :
    (∀ (db : DB) (d l m : Int) (bn : Option String) (now : Int),
      d ≤ 0 → ∃ s, get_most_discussed_tokens db d l m bn now
        = .error (.invalidParameter s)) ∧
    (∀ (db : DB) (d l m : Int) (bn : Option String) (now : Int),
      0 < d → l ≤ 0 → ∃ s, get_most_discussed_tokens db d l m bn now
        = .error (.invalidParameter s)) ∧
    (∀ (db : DB) (d l m : Int) (bn : Option String) (now : Int),
      0 < d → 0 < l → m < 0 → ∃ s, get_most_discussed_tokens db d l m bn now
        = .error (.invalidParameter s)) ∧
    (∀ (db : DB) (sym : String) (tid : Option Nat) (bn : Option String)
      (d : Int) (iv : String) (now : Int),
      decide (iv ∈ validIntervals) = true → d ≤ 0 →
      ∃ s, get_token_sentiment_timeline db (some sym) tid bn d iv now
        = .error (.invalidParameter s)) ∧
    (∀ (db : DB) (sym : String) (bn : Option String) (d mc l now : Int),
      d ≤ 0 ∨ (0 < d ∧ mc ≤ 0) ∨ (0 < d ∧ 0 < mc ∧ l ≤ 0) →
      ∃ s, analyze_token_correlation db sym bn d mc l now
        = .error (.invalidParameter s)) ∧
    (∀ (db : DB) (ts : Option (List String)) (ns : Option (List String))
      (tn d m now : Int),
      d ≤ 0 ∨ (0 < d ∧ m < 0) ∨ (0 < d ∧ 0 ≤ m ∧ tn ≤ 0) →
      ∃ s, get_sentiment_momentum db ts ns tn d m now
        = .error (.invalidParameter s)) ∧
    (∀ (db : DB) (names : List String) (d mt mm now : Int),
      names ≠ [] → d ≤ 0 →
      ∃ s, compare_blockchain_networks_sentiment db names d mt mm now
        = .error (.invalidParameter s)) ∧
    (∀ (db : DB) (sym : String) (tid : Option Nat) (bn : Option String)
      (d now : Int),
      selectorResolves db (some sym) tid bn = true →
      (get_token_sentiment_stats db (some sym) tid bn d now).isOk = true) := by
  refine ⟨?_, ?_, ?_, ?_, ?_, ?_, ?_, ?_⟩
  · intro db d l m bn now hd
    unfold get_most_discussed_tokens
    rw [if_pos hd]
    exact ⟨_, rfl⟩
  · intro db d l m bn now hd hl
    unfold get_most_discussed_tokens
    rw [if_neg (by omega), if_pos hl]
    exact ⟨_, rfl⟩
  · intro db d l m bn now hd hl hm
    unfold get_most_discussed_tokens
    rw [if_neg (by omega), if_neg (by omega), if_pos hm]
    exact ⟨_, rfl⟩
  · intro db sym tid bn d iv now hiv hd
    unfold get_token_sentiment_timeline
    rw [if_neg (by simp), if_neg (by simp [hiv]), if_pos hd]
    exact ⟨_, rfl⟩
  · intro db sym bn d mc l now hcase
    unfold analyze_token_correlation
    rcases hcase with hd | ⟨hd, hmc⟩ | ⟨hd, hmc, hl⟩
    · rw [if_pos hd]; exact ⟨_, rfl⟩
    · rw [if_neg (by omega), if_pos hmc]; exact ⟨_, rfl⟩
    · rw [if_neg (by omega), if_neg (by omega), if_pos hl]; exact ⟨_, rfl⟩
  · intro db ts ns tn d m now hcase
    unfold get_sentiment_momentum
    rcases hcase with hd | ⟨hd, hm⟩ | ⟨hd, hm, htn⟩
    · rw [if_pos hd]; exact ⟨_, rfl⟩
    · rw [if_neg (by omega), if_pos hm]; exact ⟨_, rfl⟩
    · rw [if_neg (by omega), if_neg (by omega), if_pos htn]; exact ⟨_, rfl⟩
  · intro db names d mt mm now hne hd
    unfold compare_blockchain_networks_sentiment
    rw [if_neg (by simpa using hne), if_pos hd]
    exact ⟨_, rfl⟩
  · intro db sym tid bn d now hres
    unfold get_token_sentiment_stats
    rw [if_neg (by simp), if_pos hres]
    rfl

/-- C1 amended witness: concrete rejections and the concrete absence of a
`days_back` check on the stats query. -/
theorem numeric_bound_validation_witness :
    (∃ s, get_most_discussed_tokens dbMain 0 10 5 none 1000
      = .error (.invalidParameter s)) ∧
    (∃ s, get_sentiment_momentum dbMain none none 0 14 10 1000
      = .error (.invalidParameter s)) ∧
    (∃ s, analyze_token_correlation dbMain "SOL" none 30 0 10 1000
      = .error (.invalidParameter s)) ∧
    (∃ s, get_token_sentiment_timeline dbMain (some "SOL") none none 0 "day"
      1000 = .error (.invalidParameter s)) ∧
    (∃ s, compare_blockchain_networks_sentiment dbMain ["solana"] 0 5 3 1000
      = .error (.invalidParameter s)) ∧
    (get_token_sentiment_stats dbMain (some "SOL") none none (-3) 1000).isOk
      = true := by
  refine ⟨?_, ?_, ?_, ?_, ?_, ?_⟩
  · exact numeric_bound_validation.1 dbMain 0 10 5 none 1000 (by omega)
  · exact numeric_bound_validation.2.2.2.2.2.1 dbMain none none 0 14 10 1000
      (Or.inr (Or.inr ⟨by omega, by omega, by omega⟩))
  · exact numeric_bound_validation.2.2.2.2.1 dbMain "SOL" none 30 0 10 1000
      (Or.inr (Or.inl ⟨by omega, by omega⟩))
  · exact numeric_bound_validation.2.2.2.1 dbMain "SOL" none none 0 "day"
      1000 (by decide) (by omega)
  · exact numeric_bound_validation.2.2.2.2.2.2.1 dbMain ["solana"] 0 5 3
      1000 (by simp) (by omega)
  · exact numeric_bound_validation.2.2.2.2.2.2.2 dbMain "SOL" none none
      (-3) 1000 (by with_unfolding_all rfl)

/-- C2: evaluation of the code at the failing input.  The reference symbol
XYZ is a substring of the stored candidate symbol AXYZ, so the specified
similarity is `len(shorter) / len(longer) = 3/4`; the code instead returns
`4/3`, because `min`/`max` pick the lexicographically smaller/larger string
(AXYZ sorts before XYZ) rather than the shorter/longer one.  The returned
score even exceeds `1.0`, the documented upper bound of the similarity
scale and the score of an exact match. -/
theorem find_similar_tokens_lexicographic_slip :
    find_similar_tokens dbSimilarity "XYZ" (7/10) none =
      [{ id := 1, symbol := "AXYZ", name := "A token",
         blockchain_network := none, similarity := 4/3 }] ∧
    ((4 : Rat)/3) ≠ 3/4 := by
  refine ⟨by with_unfolding_all rfl, by norm_num⟩

/-- C10: every call to `find_similar_tokens` that supplies
`exclude_token_id` returns no entry whose id equals the excluded id; the
exclusion is applied to the candidate set before similarity is computed,
so it holds even for an exact symbol match. -/
theorem find_similar_tokens_excludes_id :
    ∀ (db : DB) (sym : String) (ms : Rat) (ex : Nat),
      ∀ e ∈ find_similar_tokens db sym ms (some ex), e.id ≠ ex := by
  intro db sym ms ex e he
  unfold find_similar_tokens at he
  rw [(List.perm_insertionSort _ _).mem_iff] at he
  simp only [List.mem_filterMap] at he
  obtain ⟨t, ht, heq⟩ := he
  simp only [List.mem_filter, decide_eq_true_eq] at ht
  obtain ⟨-, hid⟩ := ht
  cases hss : similarityScore (pyNormalize sym) (pyNormalize t.symbol) with
  | none => rw [hss] at heq; simp at heq
  | some s =>
    rw [hss] at heq
    dsimp only at heq
    by_cases hth : ms ≤ s
    · rw [if_pos hth] at heq
      cases heq
      simpa using hid
    · rw [if_neg hth] at heq
      simp at heq

/-- C10 witness: on `dbExclude` the surviving exact match has id 6 and the
theorem applies to it. -/
theorem find_similar_tokens_excludes_id_witness :
    ({ id := 6, symbol := "SOL", name := "Solana2",
       blockchain_network := none, similarity := 1 } : SimilarToken).id ≠ 5 := by
  apply find_similar_tokens_excludes_id dbExclude "SOL" (1/2) 5
  have hev : find_similar_tokens dbExclude "SOL" (1/2) (some 5) =
      [{ id := 6, symbol := "SOL", name := "Solana2",
         blockchain_network := none, similarity := 1 }] := by
    with_unfolding_all rfl
  rw [hev]
  exact List.mem_singleton_self _

end CoreQueries

